import Mathlib

/-!
# Verification of the siwa annotation-defaults resolution engine

Shallow embedding of `apps/siwa-api/app/services/detection_csv.py` and
`apps/siwa-api/app/services/detection_defaults.py`.

Modelling conventions:
* Python floats are modelled as exact rationals (`ℚ`); the spec's floating
  tolerance `ε` is rendered exactly (the proved bounds are exact, which is
  stronger than the `ε`-tolerant statements).
* Python exceptions are modelled with `Except PyErr`; code regions wrapped in
  `try`/`except` in the source catch the corresponding `Except.error`.
* File-system reads (`os.path.isdir`, `open`, image decoding, `os.walk`) are
  modelled by an explicit `FS` record of pure lookup functions supplied as an
  input; `none` models "missing or unreadable", which the source treats
  identically to the corresponding skip.
* Paths are modelled as POSIX paths containing no `~` or `$` references, so
  `os.path.expanduser`/`expandvars` are the identity; a process working
  directory of `/` is assumed where `os.path.abspath` is involved.
* Configuration dictionaries are modelled with string-valued fields
  (`Option String`), matching how they are produced by the application.
* Python `str` operations are modelled on ASCII data (case folding, digit
  tests); `int()`/`float()` parsing is modelled without the exotic
  `inf`/`nan` literals and unicode digits.
-/

namespace Siwa

/-! ## Kernel-reducible rational arithmetic

`Rat.add`, `Rat.mul`, `Rat.sub` and `Rat.inv` are `@[irreducible]`, which
blocks kernel evaluation of concrete runs.  The embedding therefore computes
with the following wrappers, built on the reducible `Rat.divInt`; the
lemmas `qadd_eq` … below identify them with the standard operations for
proof purposes. -/

def qadd (a b : ℚ) : ℚ := Rat.divInt (a.num * b.den + b.num * a.den) (a.den * b.den)

def qneg (a : ℚ) : ℚ := Rat.divInt (-a.num) a.den

def qsub (a b : ℚ) : ℚ := qadd a (qneg b)

def qmul (a b : ℚ) : ℚ := Rat.divInt (a.num * b.num) (a.den * b.den)

/-- Division, with the Python/Lean convention `a / 0 = 0` preserved. -/
def qdiv (a b : ℚ) : ℚ := Rat.divInt (a.num * b.den) (a.den * b.num)

def qpow10 (k : Nat) : ℚ := Rat.divInt ((10 ^ k : Nat) : Int) 1

def qabs (a : ℚ) : ℚ := if a < 0 then qneg a else a

/-! ## Python string helpers -/

/-- Python whitespace characters (`str.split()` / `str.strip()` semantics,
ASCII fragment: space, tab, newline, carriage return, vertical tab, form feed). -/
def pyIsSpace (c : Char) : Bool :=
  c == ' ' || c == '\t' || c == '\n' || c == '\r' || c.toNat == 11 || c.toNat == 12

/-- Python `str.strip()` (no argument): drop leading and trailing whitespace. -/
def pyStrip (s : String) : String :=
  ((s.toList.dropWhile pyIsSpace).reverse.dropWhile pyIsSpace).reverse.asString

/-- Python `str.split()` with no separator: split on whitespace runs,
discarding empty fields. -/
def pySplitWsAux : List Char → List Char → List String
  | [], acc => if acc.isEmpty then [] else [acc.reverse.asString]
  | c :: cs, acc =>
    if pyIsSpace c then
      if acc.isEmpty then pySplitWsAux cs []
      else acc.reverse.asString :: pySplitWsAux cs []
    else pySplitWsAux cs (c :: acc)

def pySplitWs (s : String) : List String :=
  pySplitWsAux s.toList []

/-- ASCII lower-casing of one character. -/
def asciiLower (c : Char) : Char :=
  if 'A' ≤ c && c ≤ 'Z' then Char.ofNat (c.toNat + 32) else c

/-- Python `str.lower()` (ASCII fragment). -/
def pyLower (s : String) : String := (s.toList.map asciiLower).asString

/-- `s.startswith(p)`. -/
def strStartsWith (s p : String) : Bool := p.toList.isPrefixOf s.toList

/-- `s.endswith(p)`. -/
def strEndsWith (s p : String) : Bool := p.toList.isSuffixOf s.toList

/-- `c in s` for a single character. -/
def strContainsChar (s : String) (c : Char) : Bool := s.toList.contains c

/-- Python `str.split(sep)` for a one-character separator: keeps empty
fields, `"".split(sep) == [""]`. -/
def splitChar (sep : Char) (s : String) : List String :=
  go s.toList []
where
  go : List Char → List Char → List String
    | [], acc => [acc.reverse.asString]
    | d :: ds, acc => if d == sep then acc.reverse.asString :: go ds [] else go ds (d :: acc)

/-- `sep.join(xs)`. -/
def joinWith (sep : String) : List String → String
  | [] => ""
  | [x] => x
  | x :: xs => x ++ sep ++ joinWith sep xs

/-- Python `str.split(sep, 1)` for a single-character separator: split at the
first occurrence only. -/
def pySplit1Aux (sep : Char) : List Char → List Char → List String
  | [], acc => [acc.reverse.asString]
  | c :: cs, acc =>
    if c == sep then [acc.reverse.asString, cs.asString]
    else pySplit1Aux sep cs (c :: acc)

def pySplit1 (sep : Char) (s : String) : List String :=
  pySplit1Aux sep s.toList []

/-- Python `str.split(None, 1)`: split once on the first whitespace run
(leading whitespace ignored, as in the source the line is already stripped). -/
def pySplitNone1 (s : String) : List String :=
  let cs := s.toList.dropWhile pyIsSpace
  let tok := cs.takeWhile (fun c => !pyIsSpace c)
  let rest := (cs.dropWhile (fun c => !pyIsSpace c)).dropWhile pyIsSpace
  if tok.isEmpty then []
  else if rest.isEmpty then [tok.asString]
  else [tok.asString, rest.asString]

/-- ASCII digit test; Python `str.isdigit()` restricted to ASCII data. -/
def isAsciiDigit (c : Char) : Bool := '0' ≤ c && c ≤ '9'

/-- Python `str.isdigit()` on ASCII strings: nonempty and all digits. -/
def pyIsDigitStr (s : String) : Bool :=
  !s.isEmpty && s.toList.all isAsciiDigit

/-! ## Python numeric literal parsing -/

def digitsToNat (ds : List Char) : Nat :=
  ds.foldl (fun n c => 10 * n + (c.toNat - '0'.toNat)) 0

/-- Parse a digit group possibly containing underscores between digits
(Python numeric literal rule: an underscore must be surrounded by digits).
Returns the value, the number of digits, and the unconsumed suffix. -/
def parseDigitGroup : List Char → Option (Nat × Nat × List Char)
  | c :: cs =>
    if isAsciiDigit c then
      let rec go (v k : Nat) : List Char → Nat × Nat × List Char
        | [] => (v, k, [])
        | d :: ds =>
          if isAsciiDigit d then go (10 * v + (d.toNat - '0'.toNat)) (k + 1) ds
          else if d == '_' then
            match ds with
            | e :: es =>
              if isAsciiDigit e then go (10 * v + (e.toNat - '0'.toNat)) (k + 1) es
              else (v, k, d :: ds)
            | [] => (v, k, [d])
          else (v, k, d :: ds)
      some (go (c.toNat - '0'.toNat) 1 cs)
    else none
  | [] => none

/-- Python `int(str)` semantics (ASCII fragment): optional surrounding
whitespace, optional sign, digits with optional internal underscores. -/
def pyIntOfString (s : String) : Option Int :=
  let cs := (s.toList.dropWhile pyIsSpace).reverse.dropWhile pyIsSpace |>.reverse
  let (sign, cs) : Int × List Char :=
    match cs with
    | '-' :: rest => (-1, rest)
    | '+' :: rest => (1, rest)
    | rest => (1, rest)
  match parseDigitGroup cs with
  | some (v, _, []) => some (sign * (v : Int))
  | _ => none

/-- Python `float(str)` semantics (finite decimal fragment: optional
surrounding whitespace, sign, integer/fraction digits, optional exponent;
`inf`/`nan` literals are outside the model). -/
def pyFloatOfString (s : String) : Option ℚ :=
  let cs := (s.toList.dropWhile pyIsSpace).reverse.dropWhile pyIsSpace |>.reverse
  let (sign, cs) : ℚ × List Char :=
    match cs with
    | '-' :: rest => (-1, rest)
    | '+' :: rest => (1, rest)
    | rest => (1, rest)
  -- mantissa: digits [. digits?] | . digits
  let mantissa : Option (ℚ × List Char) :=
    match parseDigitGroup cs with
    | some (ip, _, rest) =>
      match rest with
      | '.' :: rest2 =>
        match parseDigitGroup rest2 with
        | some (fp, k, rest3) => some (qadd (ip : ℚ) (qdiv (fp : ℚ) (qpow10 k)), rest3)
        | none => some ((ip : ℚ), rest2)
      | _ => some ((ip : ℚ), rest)
    | none =>
      match cs with
      | '.' :: rest2 =>
        match parseDigitGroup rest2 with
        | some (fp, k, rest3) => some (qdiv (fp : ℚ) (qpow10 k), rest3)
        | none => none
      | _ => none
  match mantissa with
  | none => none
  | some (m, rest) =>
    match rest with
    | [] => some (qmul sign m)
    | 'e' :: rest2 | 'E' :: rest2 =>
      let (eneg, rest3) : Bool × List Char :=
        match rest2 with
        | '-' :: r => (true, r)
        | '+' :: r => (false, r)
        | r => (false, r)
      match parseDigitGroup rest3 with
      | some (ev, _, []) =>
        some (if eneg then qdiv (qmul sign m) (qpow10 ev)
              else qmul (qmul sign m) (qpow10 ev))
      | _ => none
    | _ => none

/-! ## `_extract_numbers`: the regex scan

The source extracts numeric substrings with `re.findall(r"-?\d+\.?\d*", text)`
and converts each with `float`.  We model `re.findall`'s left-to-right,
non-overlapping, greedy matching of this particular pattern, converting each
match directly to a rational (every match of the pattern is a valid float
literal, so the `float` call never fails on it). -/

/-- Try to match `-?\d+\.?\d*` at the head of the character list.  Returns the
numeric value of the match and the unconsumed suffix. -/
def matchNumberAt : List Char → Option (ℚ × List Char)
  | cs =>
    let (sign, cs1) : ℚ × List Char :=
      match cs with
      | '-' :: rest => (-1, rest)
      | rest => (1, rest)
    match parsePlainDigits cs1 with
    | some (ip, _, rest) =>
      match rest with
      | '.' :: rest2 =>
        match parsePlainDigits rest2 with
        | some (fp, k, rest3) =>
          some (qmul sign (qadd (ip : ℚ) (qdiv (fp : ℚ) (qpow10 k))), rest3)
        | none => some (qmul sign (ip : ℚ), rest2)
      | _ => some (qmul sign (ip : ℚ), rest)
    | none => none
where
  /-- `\d+` / `\d*`: a run of plain ASCII digits (no underscores in regex). -/
  parsePlainDigits : List Char → Option (Nat × Nat × List Char)
    | c :: cs =>
      if isAsciiDigit c then
        let ds := (c :: cs).takeWhile isAsciiDigit
        some (digitsToNat ds, ds.length, (c :: cs).dropWhile isAsciiDigit)
      else none
    | [] => none

/-- Left-to-right non-overlapping scan, as `re.findall` performs. -/
def extractNumbersAux : Nat → List Char → List ℚ
  | 0, _ => []
  | _, [] => []
  | Nat.succ fuel, c :: cs =>
    match matchNumberAt (c :: cs) with
    | some (q, rest) => q :: extractNumbersAux fuel rest
    | none => extractNumbersAux fuel cs

/-- `_extract_numbers` from `detection_csv.py`. -/
def extract_numbers (text : String) : List ℚ :=
  extractNumbersAux text.length text.toList

/-! ## POSIX path functions (`os.path`) -/

/-- `os.path.expanduser` ∘ `os.path.expandvars` on `path or ""`; identity on
the modelled paths (no `~`, no `$` references). -/
def expand (path : Option String) : String := path.getD ""

/-- `os.path.isabs` (POSIX). -/
def pyIsAbs (p : String) : Bool := strStartsWith p "/"

/-- `os.path.basename` (POSIX): the part after the last slash. -/
def pyBasename (p : String) : String := (splitChar '/' p).getLastD ""

/-- `os.path.join` (POSIX, two arguments). -/
def pyJoin (a b : String) : String :=
  if pyIsAbs b then b
  else if a = "" || strEndsWith a "/" then a ++ b
  else a ++ "/" ++ b

/-- `os.path.normpath` (POSIX): collapse slashes and `.`, resolve `..`
lexically, preserving the special two-leading-slash form. -/
def posixNormPath (p : String) : String :=
  if p = "" then "." else
  let slashes : Nat :=
    if strStartsWith p "//" && !strStartsWith p "///" then 2
    else if strStartsWith p "/" then 1 else 0
  let comps := splitChar '/' p
  -- accumulator holds the output components in reverse
  let newComps := comps.foldl
    (fun acc comp =>
      if comp = "" || comp = "." then acc
      else if comp ≠ ".." || (slashes = 0 && acc.isEmpty) || acc.head? = some ".." then
        comp :: acc
      else if !acc.isEmpty then acc.tail
      else acc)
    ([] : List String)
  let body := joinWith "/" newComps.reverse
  let out := (String.mk (List.replicate slashes '/')) ++ body
  if out = "" then "." else out

/-- `os.path.abspath` (POSIX) under the modelled working directory `/`. -/
def pyAbsPath (p : String) : String :=
  posixNormPath (if pyIsAbs p then p else pyJoin "/" p)

def commonPrefixLen : List String → List String → Nat
  | a :: as, b :: bs => if a = b then commonPrefixLen as bs + 1 else 0
  | _, _ => 0

/-- `os.path.relpath` (POSIX) under the modelled working directory `/`.
On POSIX this raises `ValueError` only for an empty `path`; callers model that
case separately. -/
def pyRelpath (path start : String) : String :=
  let startList := (splitChar '/' (pyAbsPath start)).filter (· ≠ "")
  let pathList := (splitChar '/' (pyAbsPath path)).filter (· ≠ "")
  let i := commonPrefixLen startList pathList
  let relList := List.replicate (startList.length - i) ".." ++ pathList.drop i
  if relList.isEmpty then "." else joinWith "/" relList

/-- `os.path.splitext` (POSIX): split off the extension at the last dot of the
final component, unless every character before that dot in the component is
itself a dot. -/
def pySplitext (p : String) : String × String :=
  let parts := splitChar '/' p
  let name := parts.getLastD ""
  let dir := joinWith "/" (parts.dropLast)
  let dirPrefix := if parts.length ≤ 1 then "" else dir ++ "/"
  let cs := name.toList
  -- index of the last '.' in the name, if any
  let rec lastDot : List Char → Option Nat
    | [] => none
    | c :: cs =>
      match lastDot cs with
      | some k => some (k + 1)
      | none => if c == '.' then some 0 else none
  match lastDot cs with
  | none => (p, "")
  | some k =>
    if (cs.take k).any (fun c => c ≠ '.') then
      (dirPrefix ++ (cs.take k).asString, (cs.drop k).asString)
    else (p, "")

/-- Case-folded normalized key under which candidate files are indexed:
`os.path.normpath(f).lower()`. -/
def normKey (f : String) : String := pyLower (posixNormPath f)

/-! ## Python dictionaries

Insertion-ordered association lists, with the key invariant maintained by
construction: `dset` updates the first binding in place or appends. -/

abbrev Dict (α : Type) : Type := List (String × α)

def dempty {α : Type} : Dict α := ([] : List (String × α))

/-- `m.get(k)`: the value of the (unique) binding of `k`, if any. -/
def dget {α : Type} : Dict α → String → Option α
  | [], _ => none
  | (k0, v) :: rest, k => if k0 = k then some v else dget rest k

def dgetD {α : Type} (m : Dict α) (k : String) (d : α) : α := (dget m k).getD d

def dset {α : Type} : Dict α → String → α → Dict α
  | [], k, v => [(k, v)]
  | (k0, v0) :: rest, k, v =>
    if k0 = k then (k, v) :: rest else (k0, v0) :: dset rest k v

/-- `d.update(other)`: set each binding of `other` in order. -/
def dupdate {α : Type} (m : Dict α) (other : Dict α) : Dict α :=
  (other : List (String × α)).foldl (fun acc p => dset acc p.1 p.2) m

/-- Build a dict from pairs, later bindings winning (dict comprehension /
`dict(...)` semantics). -/
def dofList {α : Type} (ps : List (String × α)) : Dict α :=
  ps.foldl (fun acc p => dset acc p.1 p.2) dempty

def dkeys {α : Type} (m : Dict α) : List String := (m : List (String × α)).map (·.1)

def dcontains {α : Type} (m : Dict α) (k : String) : Bool := (dget m k).isSome

/-- `d.setdefault(k, v0)`: insert a binding only when the key is absent. -/
def dsetdefault {α : Type} (m : Dict α) (k : String) (v0 : α) : Dict α :=
  if dcontains m k then m else dset m k v0

def ditems {α : Type} (m : Dict α) : List (String × α) := m

/-- Python `sorted(set(xs))` on strings: deduplicate, then sort by code
point.  Any correct sort of a duplicate-free list gives this unique result,
so the model is insensitive to the set's iteration order. -/
def sortedStrs (xs : List String) : List String :=
  List.insertionSort (· ≤ ·) xs.dedup

/-! ## Python values and exceptions -/

/-- Exceptions that the modelled code can raise. -/
inductive PyErr where
  | typeError
  | valueError
  | attributeError
deriving Repr, DecidableEq

deriving instance DecidableEq for Except

/-- Python values as produced by `json.loads` (finite fragment: no
`inf`/`nan`). -/
inductive JVal where
  | null
  | bool (b : Bool)
  | num (q : ℚ)
  | str (s : String)
  | arr (xs : List JVal)
  | obj (kvs : List (String × JVal))

/-- Python truthiness of a `JVal`. -/
def pyTruthy : JVal → Bool
  | .null => false
  | .bool b => b
  | .num q => q ≠ 0
  | .str s => s ≠ ""
  | .arr xs => !xs.isEmpty
  | .obj kvs => !kvs.isEmpty

/-- `dict.get` on a JSON object (first binding wins, as dicts have unique
keys by construction). -/
def jget (kvs : List (String × JVal)) (k : String) : Option JVal :=
  (kvs.find? (fun p => p.1 == k)).map (·.2)

/-- `v.get(k)` where `v` may not be a dict: non-dicts raise
`AttributeError`. -/
def jAttrGet (v : JVal) (k : String) : Except PyErr (Option JVal) :=
  match v with
  | .obj kvs => .ok (jget kvs k)
  | _ => .error .attributeError

/-- Python `float(v)` on a `JVal`: numbers and booleans convert, strings are
parsed (failure ⇒ `ValueError`), everything else raises `TypeError`. -/
def pyFloatOfJVal : JVal → Except PyErr ℚ
  | .num q => .ok q
  | .bool b => .ok (if b then 1 else 0)
  | .str s =>
    match pyFloatOfString s with
    | some q => .ok q
    | none => .error .valueError
  | _ => .error .typeError

/-- Python `for x in v`: lists iterate elements, strings iterate characters,
dicts iterate keys; other values raise `TypeError`. -/
def jIter : JVal → Except PyErr (List JVal)
  | .arr xs => .ok xs
  | .str s => .ok (s.toList.map (fun c => .str (String.mk [c])))
  | .obj kvs => .ok (kvs.map (fun p => .str p.1))
  | _ => .error .typeError

/-! ## `json.loads`

A strict RFC-8259 parser (the fragment without `NaN`/`Infinity` literals and
without surrogate-pair recombination).  Any decode failure is rendered as
`none`, matching how the source catches `json.JSONDecodeError`. -/

def jsonIsWs (c : Char) : Bool := c == ' ' || c == '\t' || c == '\n' || c == '\r'

def jsonSkipWs (cs : List Char) : List Char := cs.dropWhile jsonIsWs

/-- The value of one hex digit (`0`-`9`, upper or lower `A`-`F`). -/
def hexVal (c : Char) : Option Nat :=
  let n := c.toNat
  if isAsciiDigit c then some (n - 48)
  else if 'A' ≤ c && c ≤ 'F' then some (n - 55)
  else if 'a' ≤ c && c ≤ 'f' then some (n - 87)
  else none

/-- Parse the body of a JSON string after the opening quote. -/
def jsonParseStringBody : Nat → List Char → Option (String × List Char)
  | 0, _ => none
  | _, [] => none
  | Nat.succ fuel, c :: cs =>
    if c == '"' then some ("", cs)
    else if c == '\\' then
      match cs with
      | e :: cs2 =>
        let simple : Option Char :=
          if e == '"' then some '"'
          else if e == '\\' then some '\\'
          else if e == '/' then some '/'
          else if e == 'b' then some (Char.ofNat 8)
          else if e == 'f' then some (Char.ofNat 12)
          else if e == 'n' then some '\n'
          else if e == 'r' then some '\r'
          else if e == 't' then some '\t'
          else none
        match simple with
        | some ch =>
          match jsonParseStringBody fuel cs2 with
          | some (rest, cs3) => some (String.mk [ch] ++ rest, cs3)
          | none => none
        | none =>
          if e == 'u' then
            match cs2 with
            | h1 :: h2 :: h3 :: h4 :: cs3 =>
              match hexVal h1, hexVal h2, hexVal h3, hexVal h4 with
              | some a, some b, some c3, some d =>
                let code := ((a * 16 + b) * 16 + c3) * 16 + d
                match jsonParseStringBody fuel cs3 with
                | some (rest, cs4) => some (String.mk [Char.ofNat code] ++ rest, cs4)
                | none => none
              | _, _, _, _ => none
            | _ => none
          else none
      | [] => none
    else if c.toNat < 0x20 then none
    else
      match jsonParseStringBody fuel cs with
      | some (rest, cs2) => some (String.mk [c] ++ rest, cs2)
      | none => none

/-- Parse a JSON number: `-?(0|[1-9][0-9]*)(\.[0-9]+)?([eE][+-]?[0-9]+)?`. -/
def jsonParseNumber (cs : List Char) : Option (ℚ × List Char) :=
  let (sign, cs1) : ℚ × List Char :=
    match cs with
    | '-' :: rest => (-1, rest)
    | rest => (1, rest)
  let intPart : Option (Nat × List Char) :=
    match cs1 with
    | '0' :: rest => some (0, rest)
    | c :: _ =>
      if isAsciiDigit c then
        let ds := cs1.takeWhile isAsciiDigit
        some (digitsToNat ds, cs1.dropWhile isAsciiDigit)
      else none
    | [] => none
  match intPart with
  | none => none
  | some (ip, cs2) =>
    let fracPart : Option (ℚ × List Char) :=
      match cs2 with
      | '.' :: rest =>
        let ds := rest.takeWhile isAsciiDigit
        if ds.isEmpty then none
        else some (qdiv (digitsToNat ds : ℚ) (qpow10 ds.length), rest.dropWhile isAsciiDigit)
      | _ => some (0, cs2)
    match fracPart with
    | none => none
    | some (fp, cs3) =>
      let base : ℚ := qadd (ip : ℚ) fp
      match cs3 with
      | 'e' :: rest | 'E' :: rest =>
        let (eneg, rest2) : Bool × List Char :=
          match rest with
          | '-' :: r => (true, r)
          | '+' :: r => (false, r)
          | r => (false, r)
        let ds := rest2.takeWhile isAsciiDigit
        if ds.isEmpty then none
        else some ((if eneg then qdiv (qmul sign base) (qpow10 (digitsToNat ds))
                    else qmul (qmul sign base) (qpow10 (digitsToNat ds))),
                   rest2.dropWhile isAsciiDigit)
      | _ => some (qmul sign base, cs3)

/-- The parser task: a single value, the remaining members of an object, or
the remaining elements of an array. -/
inductive JTask where
  | val
  | objBody (acc : List (String × JVal))
  | arrBody (acc : List JVal)

/-- Parse one JSON construct, fuel-indexed (structural recursion on the fuel,
so that concrete runs reduce in the kernel).  Every recursive step either
consumes a character or hands over from a bracket to its body, so
`2 * length + 4` fuel never runs out. -/
def jsonParseCore : Nat → JTask → List Char → Option (JVal × List Char)
  | 0, _, _ => none
  | Nat.succ fuel, .val, cs =>
    let cs := jsonSkipWs cs
    match cs with
    | [] => none
    | c :: rest =>
      if c == '"' then
        match jsonParseStringBody (rest.length + 1) rest with
        | some (s, cs2) => some (.str s, cs2)
        | none => none
      else if c == '{' then
        match jsonSkipWs rest with
        | '}' :: cs2 => some (.obj [], cs2)
        | _ => jsonParseCore fuel (.objBody []) rest
      else if c == '[' then
        match jsonSkipWs rest with
        | ']' :: cs2 => some (.arr [], cs2)
        | _ => jsonParseCore fuel (.arrBody []) rest
      else if c == 't' then
        match cs with
        | 't' :: 'r' :: 'u' :: 'e' :: cs2 => some (.bool true, cs2)
        | _ => none
      else if c == 'f' then
        match cs with
        | 'f' :: 'a' :: 'l' :: 's' :: 'e' :: cs2 => some (.bool false, cs2)
        | _ => none
      else if c == 'n' then
        match cs with
        | 'n' :: 'u' :: 'l' :: 'l' :: cs2 => some (.null, cs2)
        | _ => none
      else
        match jsonParseNumber cs with
        | some (q, cs2) => some (.num q, cs2)
        | none => none
  | Nat.succ fuel, .objBody acc, cs =>
    match jsonSkipWs cs with
    | '"' :: csk =>
      match jsonParseStringBody (csk.length + 1) csk with
      | some (k, cs3) =>
        match jsonSkipWs cs3 with
        | ':' :: cs4 =>
          match jsonParseCore fuel .val cs4 with
          | some (v, cs5) =>
            match jsonSkipWs cs5 with
            | ',' :: cs6 => jsonParseCore fuel (.objBody (acc ++ [(k, v)])) cs6
            | '}' :: cs6 => some (.obj (dofList (acc ++ [(k, v)])), cs6)
            | _ => none
          | none => none
        | _ => none
      | none => none
    | _ => none
  | Nat.succ fuel, .arrBody acc, cs =>
    match jsonParseCore fuel .val cs with
    | some (v, cs3) =>
      match jsonSkipWs cs3 with
      | ',' :: cs4 => jsonParseCore fuel (.arrBody (acc ++ [v])) cs4
      | ']' :: cs4 => some (.arr (acc ++ [v]), cs4)
      | _ => none
    | none => none

/-- `json.loads`: whole-input parse; any decode error yields `none`. -/
def jsonLoads (s : String) : Option JVal :=
  match jsonParseCore (2 * s.length + 4) .val s.toList with
  | some (v, rest) => if (jsonSkipWs rest).isEmpty then some v else none
  | none => none

/-! ## Canonical boxes and the geometry normalizer (`detection_csv.py`) -/

/-- A produced detection box.  The source represents boxes as dicts carrying
an `id` (a fresh UUID string, no stability contract — not modelled), a label,
fractional geometry, for folder boxes a `label_index`, and for CSV negative
placeholders the `NEGATIVE_PLACEHOLDER_KEY` flag. -/
structure Box where
  label : String
  x : ℚ
  y : ℚ
  width : ℚ
  height : ℚ
  negative : Bool := false
deriving Repr, DecidableEq

/-- Image pixel dimensions `(width, height)` as returned by the external
image decoder. -/
abbrev Dims : Type := Option (Int × Int)

/-- The clamp/shrink/reject second half of `_normalize_bbox`. -/
def normalize_bbox_clamp (x y width height : ℚ) : Option (ℚ × ℚ × ℚ × ℚ) :=
  let width := max 0 (min width 1)
  let height := max 0 (min height 1)
  let x := max 0 (min x 1)
  let y := max 0 (min y 1)
  if width ≤ 0 ∨ height ≤ 0 then none
  else
    let width := if 1 < qadd x width then max 0 (qsub 1 x) else width
    let height := if 1 < qadd y height then max 0 (qsub 1 y) else height
    if width ≤ 0 ∨ height ≤ 0 then none
    else some (x, y, width, height)

/-- `_normalize_bbox` from `detection_csv.py`: optional pixel denormalization,
then clamp/shrink/reject. -/
def normalize_bbox (x y width height : ℚ) (dims : Dims) : Option (ℚ × ℚ × ℚ × ℚ) :=
  let (x, y, width, height) :=
    match dims with
    | some (imgWidth, imgHeight) =>
      if 0 < imgWidth && 0 < imgHeight then
        if 1 < width || 1 < height || 1 < x || 1 < y then
          (qdiv x (imgWidth : ℚ), qdiv y (imgHeight : ℚ),
           qdiv width (imgWidth : ℚ), qdiv height (imgHeight : ℚ))
        else (x, y, width, height)
      else (x, y, width, height)
    | none => (x, y, width, height)
  normalize_bbox_clamp x y width height

/-- `_from_corners` from `detection_csv.py`. -/
def from_corners (x1 y1 x2 y2 : ℚ) (dims : Dims) : Option (ℚ × ℚ × ℚ × ℚ) :=
  normalize_bbox (min x1 x2) (min y1 y2) (qabs (qsub x2 x1)) (qabs (qsub y2 y1)) dims

/-- Four `float(...)` conversions evaluated left to right, the first error
raising. -/
def pyFloat4 (a b c d : JVal) : Except PyErr (ℚ × ℚ × ℚ × ℚ) :=
  match pyFloatOfJVal a with
  | .error e => .error e
  | .ok x =>
    match pyFloatOfJVal b with
    | .error e => .error e
    | .ok y =>
      match pyFloatOfJVal c with
      | .error e => .error e
      | .ok w =>
        match pyFloatOfJVal d with
        | .error e => .error e
        | .ok h => .ok (x, y, w, h)

/-- `_parse_json_bbox` from `detection_csv.py`.  The `float(...)` calls are
not guarded, so non-numeric fields raise. -/
def parse_json_bbox (data : JVal) (dims : Dims) : Except PyErr (Option (ℚ × ℚ × ℚ × ℚ)) :=
  match data with
  | .obj kvs =>
    if (jget kvs "x").isSome && (jget kvs "y").isSome &&
        (jget kvs "width").isSome && (jget kvs "height").isSome then
      match pyFloat4 ((jget kvs "x").getD .null) ((jget kvs "y").getD .null)
          ((jget kvs "width").getD .null) ((jget kvs "height").getD .null) with
      | .error e => .error e
      | .ok (x, y, w, h) => .ok (normalize_bbox x y w h dims)
    else if (jget kvs "x1").isSome && (jget kvs "y1").isSome &&
        (jget kvs "x2").isSome && (jget kvs "y2").isSome then
      match pyFloat4 ((jget kvs "x1").getD .null) ((jget kvs "y1").getD .null)
          ((jget kvs "x2").getD .null) ((jget kvs "y2").getD .null) with
      | .error e => .error e
      | .ok (x1, y1, x2, y2) => .ok (from_corners x1 y1 x2 y2 dims)
    else
      match jget kvs "bbox" with
      | some (.arr bbox) =>
        if bbox.length ≥ 4 then
          match pyFloat4 (bbox.getD 0 .null) (bbox.getD 1 .null)
              (bbox.getD 2 .null) (bbox.getD 3 .null) with
          | .error e => .error e
          | .ok (a, b, c, d) => .ok (normalize_bbox a b c d dims)
        else .ok none
      | _ => .ok none
  | .arr xs =>
    if xs.length ≥ 4 then
      match pyFloat4 (xs.getD 0 .null) (xs.getD 1 .null) (xs.getD 2 .null) (xs.getD 3 .null) with
      | .error e => .error e
      | .ok (a, b, c, d) => .ok (normalize_bbox a b c d dims)
    else .ok none
  | _ => .ok none

/-- The fall-through of `_parse_bbox_from_value`: extract the first four
decimal numbers by pattern scan. -/
def bbox_from_scanned_numbers (value : String) (dims : Dims) : Option (ℚ × ℚ × ℚ × ℚ) :=
  let numbers := extract_numbers value
  if numbers.length ≥ 4 then
    normalize_bbox (numbers.getD 0 0) (numbers.getD 1 0)
      (numbers.getD 2 0) (numbers.getD 3 0) dims
  else none

/-- `_parse_bbox_from_value` from `detection_csv.py`: structured JSON first
(the source tests `if bbox:` — a tuple is always truthy), then the numeric
scan. -/
def parse_bbox_from_value (value : String) (dims : Dims) :
    Except PyErr (Option (ℚ × ℚ × ℚ × ℚ)) :=
  match jsonLoads value with
  | some parsed =>
    match parse_json_bbox parsed dims with
    | .error e => .error e
    | .ok (some bbox) => .ok (some bbox)
    | .ok none => .ok (bbox_from_scanned_numbers value dims)
  | none => .ok (bbox_from_scanned_numbers value dims)

/-- `_bbox_from_yolo_numbers` from `detection_csv.py`. -/
def bbox_from_yolo_numbers (numbers : List ℚ) : Option (ℚ × ℚ × ℚ × ℚ) :=
  if numbers.length < 4 then none
  else
    let xCenter := numbers.getD 0 0
    let yCenter := numbers.getD 1 0
    let width := numbers.getD 2 0
    let height := numbers.getD 3 0
    normalize_bbox (qsub xCenter (qdiv width 2)) (qsub yCenter (qdiv height 2)) width height none

/-- `_bbox_from_pascal_numbers` from `detection_csv.py`. -/
def bbox_from_pascal_numbers (numbers : List ℚ) (dims : Dims) :
    Option (ℚ × ℚ × ℚ × ℚ) :=
  match dims with
  | none => none
  | some (imgWidth, imgHeight) =>
    if numbers.length < 4 then none
    else if imgWidth ≤ 0 ∨ imgHeight ≤ 0 then none
    else
      let xMin := numbers.getD 0 0
      let yMin := numbers.getD 1 0
      let xMax := numbers.getD 2 0
      let yMax := numbers.getD 3 0
      let width := max (qsub xMax xMin) 0
      let height := max (qsub yMax yMin) 0
      if width ≤ 0 ∨ height ≤ 0 then none
      else
        normalize_bbox (qdiv xMin (imgWidth : ℚ)) (qdiv yMin (imgHeight : ℚ))
          (qdiv width (imgWidth : ℚ)) (qdiv height (imgHeight : ℚ)) none

/-- `_bbox_from_coco_numbers` from `detection_csv.py`. -/
def bbox_from_coco_numbers (numbers : List ℚ) (dims : Dims) :
    Option (ℚ × ℚ × ℚ × ℚ) :=
  match dims with
  | none => none
  | some (imgWidth, imgHeight) =>
    if numbers.length < 4 then none
    else if imgWidth ≤ 0 ∨ imgHeight ≤ 0 then none
    else
      let x := numbers.getD 0 0
      let y := numbers.getD 1 0
      let width := numbers.getD 2 0
      let height := numbers.getD 3 0
      normalize_bbox (qdiv x (imgWidth : ℚ)) (qdiv y (imgHeight : ℚ))
        (qdiv width (imgWidth : ℚ)) (qdiv height (imgHeight : ℚ)) none

/-- Python `v or d` on an optional string: `None` and `""` fall back. -/
def pyOrStr (v : Option String) (d : String) : String :=
  match v with
  | some s => if s = "" then d else s
  | none => d

/-- `parse_detection_bbox` from `detection_csv.py`: the geometry-normalizing
entry point. -/
def parse_detection_bbox (value : String) (dims : Dims) (representation : Option String) :
    Except PyErr (Option (ℚ × ℚ × ℚ × ℚ)) :=
  let rep := pyLower (pyOrStr representation "yolo")
  let numbers := extract_numbers value
  if rep = "yolo" then .ok (bbox_from_yolo_numbers numbers)
  else if rep = "pascal_voc" then .ok (bbox_from_pascal_numbers numbers dims)
  else if rep = "coco_bbox" then .ok (bbox_from_coco_numbers numbers dims)
  else parse_bbox_from_value value dims

/-! ## Negative placeholders (`detection_csv.py`) -/

/-- `negative_placeholder`: a zero-area box flagged with
`NEGATIVE_PLACEHOLDER_KEY` (the generated id is not modelled). -/
def negative_placeholder (label : String) : Box :=
  { label := if label = "" then "negative" else label
    x := 0, y := 0, width := 0, height := 0, negative := true }

/-- `has_negative_default`. -/
def has_negative_default (boxes : List Box) : Bool :=
  boxes.any (·.negative)

/-! ## Input data: dataset, configuration, file system -/

/-- The annotation-source configuration dictionary (string-valued fields, as
produced by the application; a missing key is `none`). -/
structure SourceCfg where
  path : Option String := none
  file_extension : Option String := none
  label_map : Option (List (String × String)) := none
  label_map_file : Option String := none
  annotation_representation : Option String := none
  image_column : Option String := none
  annotation_column : Option String := none
  label_column : Option String := none
  negative_value : Option String := none

/-- `dataset.annotation_source`: a dict with `format` and `config`. -/
structure AnnSource where
  format : Option String := none
  config : Option SourceCfg := none

/-- The dataset object, flattened to the fields the engine reads:
`dataset.data_source["config"]["path"]` (the data root, `""` when missing),
`dataset.class_names` (`None` modelled as `[]`), and
`dataset.annotation_source`. -/
structure Dataset where
  data_root : String := ""
  class_names : List String := []
  annotation_source : Option AnnSource := none

/-- A parsed `<bndbox>` element: text of each coordinate child
(`none` = child missing or empty-element text). -/
structure XmlBndBox where
  xmin : Option String := none
  ymin : Option String := none
  xmax : Option String := none
  ymax : Option String := none

/-- A parsed `<object>` element.  `name` is the text of the `<name>` child
(`none` = child missing or text `None`). -/
structure XmlObj where
  name : Option String := none
  bndbox : Option XmlBndBox := none

/-- A parsed `<size>` element; each field is `some t` when the child exists
with text `t` (`some none` = child with `None` text). -/
structure XmlSize where
  width : Option (Option String) := none
  height : Option (Option String) := none

/-- A parsed Pascal-VOC XML document (the elements the engine reads). -/
structure XmlDoc where
  size : Option XmlSize := none
  objects : List XmlObj := []

/-- A CSV row as produced by `csv.DictReader`. -/
abbrev Row : Type := Dict String

def rowGet (r : Row) (k : String) (d : String) : String := dgetD r k d

/-- The file system, as a record of pure read functions.  `none` models
"missing or unreadable", which the source treats identically to the
corresponding skip/empty-result branch. -/
structure FS where
  /-- `os.path.isdir` -/
  isdir : String → Bool := fun _ => false
  /-- `os.path.exists` -/
  pathExists : String → Bool := fun _ => false
  /-- `open(p).readlines()` for text files (sidecars, label-map files);
  `none` = not a file / `OSError`. -/
  textLines : String → Option (List String) := fun _ => none
  /-- `json.load(open(p))`; `none` = not a file / `OSError` /
  `JSONDecodeError`. -/
  jsonFile : String → Option JVal := fun _ => none
  /-- `csv.DictReader(open(p))` materialized; `none` = not a file /
  read failure. -/
  csvRows : String → Option (List Row) := fun _ => none
  /-- the external image decoder: `(img.width, img.height)`;
  `none` = decode failure. -/
  imgDims : String → Option (Int × Int) := fun _ => none
  /-- `ET.parse(p)`; `none` = not a file / `OSError` / `ParseError`. -/
  xmlFile : String → Option XmlDoc := fun _ => none
  /-- `os.walk(root)` flattened to `(dirpath, filename)` pairs. -/
  walkFiles : String → List (String × String) := fun _ => []

/-! ## Path resolution helpers -/

/-- `_resolve_csv_path` from `detection_csv.py`. -/
def resolve_csv_path (fs : FS) (path : Option String) (dataRoot : String) : String :=
  let candidate := expand path
  if candidate = "" then ""
  else if pyIsAbs candidate then posixNormPath candidate
  else
    let combined := posixNormPath (pyJoin (posixNormPath dataRoot) candidate)
    if dataRoot ≠ "" && fs.pathExists combined then combined
    else if fs.pathExists candidate then posixNormPath candidate
    else if dataRoot ≠ "" then combined
    else posixNormPath candidate

/-- `_normalize_image_path` from `detection_csv.py`. -/
def normalize_image_path (value : String) (dataRoot : String) : String :=
  let candidate := expand (some value)
  if candidate = "" then ""
  else
    let candidate :=
      if !pyIsAbs candidate && dataRoot ≠ "" then pyJoin dataRoot candidate else candidate
    posixNormPath candidate

/-- `_resolve_annotation_path` from `detection_defaults.py`. -/
def resolve_annotation_path (ds : Dataset) (path : Option String) : String :=
  let candidate := expand path
  if candidate = "" then ""
  else if pyIsAbs candidate then posixNormPath candidate
  else
    let dataRoot := expand (some ds.data_root)
    if dataRoot ≠ "" then posixNormPath (pyJoin dataRoot candidate) else candidate

/-- `_annotation_file_for` from `detection_defaults.py`.  On POSIX,
`os.path.relpath` raises `ValueError` (caught, falling back to the basename)
only for an empty `image_path`. -/
def annotation_file_for (imagePath dataRoot annRoot extension : String) : String :=
  let extension := if extension = "" then ".txt" else extension
  let extension := if strStartsWith extension "." then extension else "." ++ extension
  let rel := if imagePath = "" then pyBasename imagePath else pyRelpath imagePath dataRoot
  let base := (pySplitext rel).1
  pyJoin annRoot (base ++ extension)

/-- `_clamp` from `detection_defaults.py`. -/
def clamp (value : ℚ) : ℚ := max 0 (min 1 value)

/-! ## The label resolver (`detection_defaults.py`) -/

/-- `_load_label_map_from_file`: line-oriented `index: label` / `index label`
file; malformed lines skipped, read failures degrade to the empty map. -/
def load_label_map_from_file (fs : FS) (filePath : String) : Dict String :=
  let expandedPath := expand (some filePath)
  match fs.textLines expandedPath with
  | none => dempty
  | some ls =>
    ls.foldl
      (fun acc rawLine =>
        let line := pyStrip rawLine
        if line = "" || strStartsWith line "#" then acc
        else
          let parts := if strContainsChar line ':' then pySplit1 ':' line else pySplitNone1 line
          match parts with
          | [a, b] =>
            let index := pyStrip a
            let label := pyStrip b
            if index ≠ "" && label ≠ "" then dset acc index label else acc
          | _ => acc)
      dempty

/-- `_label_for_index`: effective-map lookup, then class-name index fallback,
then the stripped token itself. -/
def label_for_index (labelIndex : String) (labelMap : Dict String)
    (classNames : List String) : String :=
  let indexKey := pyStrip labelIndex
  match dget labelMap indexKey with
  | some v =>
    if v ≠ "" then v
    else labelIndexFallback indexKey classNames
  | none => labelIndexFallback indexKey classNames
where
  labelIndexFallback (indexKey : String) (classNames : List String) : String :=
    match pyIntOfString indexKey with
    | some idx =>
      if !classNames.isEmpty && 0 ≤ idx && idx < (classNames.length : Int) then
        classNames.getD idx.toNat ""
      else indexKey
    | none => indexKey

/-- The effective label map built by the parsers: external file entries
updated (overlaid) by the inline entries. -/
def effective_label_map (fs : FS) (cfg : SourceCfg) : Dict String :=
  let fileMap :=
    match cfg.label_map_file with
    | some f => if f ≠ "" then load_label_map_from_file fs f else dempty
    | none => dempty
  let inlineMap := dofList (cfg.label_map.getD [])
  dupdate fileMap inlineMap

/-! ## The CSV bulk parser (`detection_defaults_from_csv`) -/

/-- `(dataset.class_names or ["object"])[0]`. -/
def firstClassName (classNames : List String) : String :=
  match classNames with
  | [] => "object"
  | c :: _ => c

/-- `row.get(image_column, "") or row.get("path", "")`. -/
def csvRowRawPath (row : Row) (imageCol : String) : String :=
  let v := rowGet row imageCol ""
  if v ≠ "" then v else rowGet row "path" ""

/-- The effective row label: `label_column` value, falling back to the
`label` column, stripped, falling back to the first dataset class name. -/
def csvRowLabel (ds : Dataset) (row : Row) (labelCol : String) : String :=
  let label :=
    let v := rowGet row labelCol ""
    pyStrip (if v ≠ "" then v else rowGet row "label" "")
  if label ≠ "" then label else firstClassName ds.class_names

/-- Whether a row takes the negative branch. -/
def csvRowIsNegative (ds : Dataset) (negValue labelCol : String) (row : Row) : Bool :=
  negValue ≠ "" && pyLower (csvRowLabel ds row labelCol) = pyLower negValue

/-- The body of the row loop once the row has matched candidate key
`normPath` (with original candidate path `origFile`):
`boxes = defaults.setdefault(norm_path, [])`, the negative branch (append at
most one placeholder), or the geometry branch. -/
def csvMatchedStep (fs : FS) (ds : Dataset) (rep negValue labelCol annCol : String)
    (d : Dict (List Box)) (normPath origFile : String) (row : Row) :
    Except PyErr (Dict (List Box)) :=
  let d := dsetdefault d normPath []
  let boxes := dgetD d normPath []
  let label := csvRowLabel ds row labelCol
  if csvRowIsNegative ds negValue labelCol row then
    .ok (if has_negative_default boxes then d
         else dset d normPath (boxes ++ [negative_placeholder label]))
  else
    let geomValue := rowGet row annCol ""
    if geomValue = "" then .ok d
    else
      match parse_detection_bbox geomValue (fs.imgDims origFile) (some rep) with
      | .error e => .error e
      | .ok none => .ok d
      | .ok (some (x, y, w, h)) =>
        .ok (dset d normPath
          (boxes ++ [{ label := label, x := x, y := y, width := w, height := h }]))

/-- One iteration of the row loop of `detection_defaults_from_csv`.
`filesSet` is the precomputed `{normpath(f).lower(): f}` map. -/
def csvRowStep (fs : FS) (ds : Dataset) (filesSet : Dict String)
    (dataRoot rep negValue labelCol imageCol annCol : String)
    (d : Dict (List Box)) (row : Row) : Except PyErr (Dict (List Box)) :=
  let rawPath := csvRowRawPath row imageCol
  if rawPath = "" then .ok d
  else
    let normPath := pyLower (posixNormPath (normalize_image_path rawPath dataRoot))
    match dget filesSet normPath with
    | none => .ok d
    | some origFile => csvMatchedStep fs ds rep negValue labelCol annCol d normPath origFile row

/-- `detection_defaults_from_csv` from `detection_csv.py`.  The whole row
loop sits inside `try: ... except Exception: return {}`, so this parser never
raises. -/
def detection_defaults_from_csv (fs : FS) (ds : Dataset) (files : List String)
    (cfg : SourceCfg) : Dict (List Box) :=
  let dataRoot := expand (some ds.data_root)
  let csvPath := resolve_csv_path fs cfg.path dataRoot
  if csvPath = "" then dempty
  else
    match fs.csvRows csvPath with
    | none => dempty
    | some rows =>
      let imageCol := cfg.image_column.getD ""
      let annCol := cfg.annotation_column.getD ""
      if imageCol = "" || annCol = "" then dempty
      else
        let rep := pyLower (pyOrStr cfg.annotation_representation "yolo")
        let negValue := pyStrip (pyOrStr cfg.negative_value "")
        let labelCol := pyStrip (pyOrStr cfg.label_column "")
        let filesSet := dofList (files.map (fun f => (normKey f, f)))
        match rows.foldlM (csvRowStep fs ds filesSet dataRoot rep negValue labelCol imageCol annCol) dempty with
        | .ok d => d
        | .error _ => dempty

/-- `detection_label_names_from_csv` from `detection_csv.py`. -/
def detection_label_names_from_csv (fs : FS) (ds : Dataset) (cfg : SourceCfg) :
    List String :=
  let dataRoot := expand (some ds.data_root)
  let csvPath := resolve_csv_path fs cfg.path dataRoot
  if csvPath = "" then []
  else
    match fs.csvRows csvPath with
    | none => []
    | some rows =>
      if (cfg.image_column.getD "") = "" then []
      else
        let negValue := pyStrip (pyOrStr cfg.negative_value "")
        let labels := rows.foldl
          (fun ls row =>
            let label := pyStrip (rowGet row (pyOrStr cfg.label_column "") "")
            if label = "" || (negValue ≠ "" && pyLower label = pyLower negValue) then ls
            else ls ++ [label])
          []
        sortedStrs labels

/-! ## The folder parsers (`detection_defaults.py`) -/

/-- `int(text or 0)` on an XML node text. -/
def pyIntOfText (t : Option String) : Option Int :=
  match t with
  | none => some 0
  | some s => if s = "" then some 0 else pyIntOfString s

/-- The `<size>` computation of `_defaults_from_pascal_voc_xml`: both `int()`
calls sit in one `try`, so a failing height keeps an already-parsed width. -/
def xmlSizeDims (sz : Option XmlSize) : Int × Int :=
  match sz with
  | none => (0, 0)
  | some sz =>
    match sz.width, sz.height with
    | some wt, some ht =>
      match pyIntOfText wt with
      | none => (0, 0)
      | some w =>
        match pyIntOfText ht with
        | none => (w, 0)
        | some h => (w, h)
    | _, _ => (0, 0)

/-- `float(bndbox.find(tag).text)` with `ValueError`/`AttributeError`/
`TypeError` caught by the per-object `try`. -/
def bndboxFloat (t : Option String) : Option ℚ := t.bind pyFloatOfString

/-- The four `<bndbox>` coordinates, all of which must parse for the object
to survive (any failure is caught by the per-object `try` and skips it). -/
def bndboxCoords (bb : XmlBndBox) : Option (ℚ × ℚ × ℚ × ℚ) :=
  match bndboxFloat bb.xmin, bndboxFloat bb.ymin,
      bndboxFloat bb.xmax, bndboxFloat bb.ymax with
  | some xmin, some ymin, some xmax, some ymax => some (xmin, ymin, xmax, ymax)
  | _, _, _, _ => none

/-- The per-object body of `_defaults_from_pascal_voc_xml` (skips, clamping,
degenerate rejection).  Note: the source clamps each coordinate individually
and does not shrink `width`/`height` on corner overflow. -/
def xmlObjStep (labelMap : Dict String) (width height : Int) (bs : List Box)
    (obj : XmlObj) : List Box :=
  match obj.name with
  | none => bs
  | some nm =>
    if nm = "" then bs
    else
      -- `if label_map: name = label_map.get(name, name)` — extensionally
      -- the identity when the map is empty
      let name := (dget labelMap nm).getD nm
      match obj.bndbox with
      | none => bs
      | some bb =>
        match bndboxCoords bb with
        | none => bs
        | some (xmin, ymin, xmax, ymax) =>
          let boxWidth := qsub xmax xmin
          let boxHeight := qsub ymax ymin
          let x := clamp (qdiv xmin (width : ℚ))
          let y := clamp (qdiv ymin (height : ℚ))
          let w := clamp (qdiv boxWidth (width : ℚ))
          let h := clamp (qdiv boxHeight (height : ℚ))
          if w ≤ 0 ∨ h ≤ 0 then bs
          else bs ++ [{ label := name, x := x, y := y, width := w, height := h }]

/-- The boxes produced from one parsed XML document. -/
def xmlDocBoxes (labelMap : Dict String) (width height : Int) (doc : XmlDoc) :
    List Box :=
  doc.objects.foldl (xmlObjStep labelMap width height) []

/-- `_defaults_from_pascal_voc_xml` from `detection_defaults.py`. -/
def defaults_from_pascal_voc_xml (fs : FS) (ds : Dataset) (files : List String)
    (cfg : SourceCfg) : Dict (List Box) :=
  let annotationRoot := resolve_annotation_path ds cfg.path
  if annotationRoot = "" || !fs.isdir annotationRoot then dempty
  else
    let dataRoot := expand (some ds.data_root)
    let extension := pyOrStr cfg.file_extension ".xml"
    let labelMap := effective_label_map fs cfg
    files.foldl
      (fun d imagePath =>
        let normPath := posixNormPath imagePath
        let annotationFile := annotation_file_for imagePath dataRoot annotationRoot extension
        match fs.xmlFile annotationFile with
        | none => d
        | some doc =>
          let (w0, h0) := xmlSizeDims doc.size
          let (width, height) :=
            if w0 ≤ 0 ∨ h0 ≤ 0 then
              match fs.imgDims normPath with
              | some dims => dims
              | none => (w0, h0)
            else (w0, h0)
          if width ≤ 0 ∨ height ≤ 0 then d
          else
            let boxes := xmlDocBoxes labelMap width height doc
            if boxes.isEmpty then d else dset d (pyLower normPath) boxes)
      dempty

/-- One line of a folder sidecar file in `_defaults_from_folder`: lines with
fewer than 2 whitespace tokens are skipped; token 0 is the raw label and the
remaining tokens, re-joined, form the geometry string. -/
def folderLineBox (labelMap : Dict String) (classNames : List String)
    (dims : Dims) (representation : String) (raw : String) :
    Except PyErr (Option Box) :=
  let parts := pySplitWs (pyStrip raw)
  if parts.length < 2 then .ok none
  else
    let labelIndex := parts.getD 0 ""
    let geomValue := joinWith " " (parts.drop 1)
    match parse_detection_bbox geomValue dims (some representation) with
    | .error e => .error e
    | .ok none => .ok none
    | .ok (some (x, y, w, h)) =>
      .ok (some { label := label_for_index labelIndex labelMap classNames
                  x := x, y := y, width := w, height := h })

/-- `(cfg.get("annotation_representation") or "yolo").lower()` as computed by
`_defaults_from_folder`. -/
def folderRepresentation (cfg : SourceCfg) : String :=
  pyLower (pyOrStr cfg.annotation_representation "yolo")

/-- `cfg.get("file_extension") or default_ext` as computed by
`_defaults_from_folder` (default `.xml` for `pascal_voc`, else `.txt`). -/
def folderExtension (cfg : SourceCfg) : String :=
  let defaultExt := if folderRepresentation cfg = "pascal_voc" then ".xml" else ".txt"
  pyOrStr cfg.file_extension defaultExt

/-- The per-sidecar line loop of `_defaults_from_folder`: accumulate the boxes
of the successful lines, in line order. -/
def folderFileBoxes (labelMap : Dict String) (classNames : List String) (dims : Dims)
    (representation : String) (ls : List String) : Except PyErr (List Box) :=
  ls.foldlM
    (fun bs raw =>
      match folderLineBox labelMap classNames dims representation raw with
      | .error e => .error e
      | .ok none => .ok bs
      | .ok (some b) => .ok (bs ++ [b]))
    []

/-- One iteration of the per-file loop of `_defaults_from_folder` (text path):
image dimensions are looked up only for the pixel-absolute representations;
a missing sidecar contributes nothing; a file whose sidecar yields no boxes
is omitted. -/
def folderFileStep (fs : FS) (ds : Dataset) (cfg : SourceCfg)
    (annotationRoot dataRoot : String) (d : Dict (List Box)) (imagePath : String) :
    Except PyErr (Dict (List Box)) :=
  let normPath := posixNormPath imagePath
  let dims : Dims :=
    if folderRepresentation cfg = "pascal_voc" ∨ folderRepresentation cfg = "coco_bbox" then
      fs.imgDims normPath
    else none
  match fs.textLines (annotation_file_for imagePath dataRoot annotationRoot (folderExtension cfg)) with
  | none => .ok d
  | some ls =>
    match folderFileBoxes (effective_label_map fs cfg) ds.class_names dims
        (folderRepresentation cfg) ls with
    | .error e => .error e
    | .ok boxes => .ok (if boxes.isEmpty then d else dset d (pyLower normPath) boxes)

/-- `_defaults_from_folder` from `detection_defaults.py`.  The source's outer
`.xml`/`pascal_voc` test only ever diverts to the XML parser when the
extension is `.xml`; otherwise the text path runs. -/
def defaults_from_folder (fs : FS) (ds : Dataset) (files : List String)
    (cfg : SourceCfg) : Except PyErr (Dict (List Box)) :=
  let annotationRoot := resolve_annotation_path ds cfg.path
  if annotationRoot = "" || !fs.isdir annotationRoot then .ok dempty
  else if pyLower (folderExtension cfg) = ".xml" then
    .ok (defaults_from_pascal_voc_xml fs ds files cfg)
  else
    files.foldlM (folderFileStep fs ds cfg annotationRoot (expand (some ds.data_root))) dempty

/-! ## The JSON bulk parser (`_defaults_from_json`) -/

/-- `entries = payload if list else payload.get("annotations") or
payload.get("data") or []`; `payload.get` on a non-dict raises
`AttributeError`. -/
def jsonEntriesOf (payload : JVal) : Except PyErr JVal :=
  match payload with
  | .arr _ => .ok payload
  | .obj kvs =>
    let a := (jget kvs "annotations").getD .null
    let a := if pyTruthy a then a else (jget kvs "data").getD .null
    .ok (if pyTruthy a then a else .arr [])
  | _ => .error .attributeError

/-- `(box.get("label") or "").strip()`: `box.get` on a non-dict and
`.strip()` on a truthy non-string both raise `AttributeError`. -/
def jBoxLabel (box : JVal) : Except PyErr String :=
  match jAttrGet box "label" with
  | .error e => .error e
  | .ok labelVal =>
    let lv := labelVal.getD .null
    match if pyTruthy lv then lv else .str "" with
    | .str s => .ok (pyStrip s)
    | _ => .error .attributeError

/-- `float(box.get(k, 0))` guarded by the per-box
`except (TypeError, ValueError)`. -/
def jBoxNum (kvs : List (String × JVal)) (k : String) : Option ℚ :=
  match pyFloatOfJVal ((jget kvs k).getD (.num 0)) with
  | .ok q => some q
  | .error _ => none

/-- The per-box body of the entry loop in `_defaults_from_json`: clamp, shrink
on corner overflow, drop degenerate boxes.  Raises exactly where the source
does (box or label of the wrong shape). -/
def jsonBoxStep (bs : List Box) (box : JVal) : Except PyErr (List Box) :=
  match jBoxLabel box with
  | .error e => .error e
  | .ok label =>
    if label = "" then .ok bs
    else
      let kvs := match box with | .obj kvs => kvs | _ => []
      match jBoxNum kvs "x", jBoxNum kvs "y", jBoxNum kvs "width", jBoxNum kvs "height" with
      | some x0, some y0, some w0, some h0 =>
        let x := clamp x0
        let y := clamp y0
        let width := clamp w0
        let height := clamp h0
        let width := if 1 < qadd x width then clamp (qsub 1 x) else width
        let height := if 1 < qadd y height then clamp (qsub 1 y) else height
        if width ≤ 0 ∨ height ≤ 0 then .ok bs
        else .ok (bs ++ [{ label := label, x := x, y := y, width := width, height := height }])
      | _, _, _, _ => .ok bs

/-- One iteration of the lookup-building loop of `_defaults_from_json`:
index one entry's valid boxes by normalized full path and by basename.
`os.path.isabs` on a non-string path raises `TypeError`. -/
def jsonEntryStep (dataRoot : String) (lk : Dict (List Box) × Dict (List Box))
    (entry : JVal) : Except PyErr (Dict (List Box) × Dict (List Box)) :=
  match entry with
  | .obj ekvs =>
    let rawPath := (jget ekvs "path").getD .null
    if !pyTruthy rawPath then .ok lk
    else
      match rawPath with
      | .str pathStr =>
        let candidate :=
          if !pyIsAbs pathStr && dataRoot ≠ "" then pyJoin dataRoot pathStr else pathStr
        let normalized := pyLower (posixNormPath (expand (some candidate)))
        let baseName := pyBasename normalized
        match jIter ((jget ekvs "boxes").getD (.arr [])) with
        | .error e => .error e
        | .ok boxItems =>
          match boxItems.foldlM jsonBoxStep [] with
          | .error e => .error e
          | .ok boxes =>
            if boxes.isEmpty then .ok lk
            else
              let lp := dset lk.1 normalized (dgetD lk.1 normalized [] ++ boxes)
              let ln :=
                if baseName ≠ "" then dset lk.2 baseName (dgetD lk.2 baseName [] ++ boxes)
                else lk.2
              .ok (lp, ln)
      | _ => .error PyErr.typeError
  | _ => .ok lk

/-- The lookup-building loop of `_defaults_from_json`. -/
def jsonBuildLookups (dataRoot : String) (entries : List JVal) :
    Except PyErr (Dict (List Box) × Dict (List Box)) :=
  entries.foldlM (jsonEntryStep dataRoot) (dempty, dempty)

/-- The final matching loop of `_defaults_from_json`: for each candidate
file, the full-path lookup wins, then the basename lookup. -/
def jsonMatchFiles (files : List String)
    (lookupByPath lookupByName : Dict (List Box)) : Dict (List Box) :=
  files.foldl
    (fun d path =>
      let norm := pyLower (posixNormPath path)
      let base := pyBasename norm
      let boxes := dgetD lookupByPath norm []
      if !boxes.isEmpty then dset d norm boxes
      else
        let alt := dgetD lookupByName base []
        if !alt.isEmpty then dset d norm alt else d)
    dempty

/-- `_defaults_from_json` from `detection_defaults.py`.  (The source also
builds a label map here that it never uses; it has no effect and is not
modelled.) -/
def defaults_from_json (fs : FS) (ds : Dataset) (files : List String)
    (cfg : SourceCfg) : Except PyErr (Dict (List Box)) :=
  let jsonPath := resolve_annotation_path ds cfg.path
  if jsonPath = "" then .ok dempty
  else
    match fs.jsonFile jsonPath with
    | none => .ok dempty
    | some payload =>
      match jsonEntriesOf payload with
      | .error e => .error e
      | .ok (.arr entryList) =>
        match jsonBuildLookups (expand (some ds.data_root)) entryList with
        | .error e => .error e
        | .ok (lookupByPath, lookupByName) =>
          if (dkeys lookupByPath).isEmpty && (dkeys lookupByName).isEmpty then .ok dempty
          else .ok (jsonMatchFiles files lookupByPath lookupByName)
      | .ok _ => .ok dempty

/-! ## The format dispatcher -/

/-- `detection_defaults_for_files` from `detection_defaults.py`: the public
box-resolution entry point. -/
def detection_defaults_for_files (fs : FS) (ds : Dataset) (files : List String) :
    Except PyErr (Dict (List Box)) :=
  let ann := ds.annotation_source.getD {}
  let cfg := ann.config.getD {}
  let fmt := pyLower (pyOrStr ann.format "")
  if fmt = "folder" then defaults_from_folder fs ds files cfg
  else if fmt = "json" then defaults_from_json fs ds files cfg
  else if fmt = "csv" then .ok (detection_defaults_from_csv fs ds files cfg)
  else .ok dempty

/-! ## The label-names query (`detection_label_names_from_source`) -/

/-- The key function `float(k) if str(k).isdigit() else k` of the folder
inline-label-map sort. -/
inductive SortKey where
  | num (q : ℚ)
  | str (s : String)

def sortKeyOf (k : String) : SortKey :=
  if pyIsDigitStr k then .num ((digitsToNat k.toList : Nat) : ℚ) else .str k

def sortKeyLe : SortKey → SortKey → Bool
  | .num a, .num b => a ≤ b
  | .str a, .str b => a ≤ b
  | _, _ => true  -- mixed comparison raises before ordering is consulted

/-- Stable insertion sort by a boolean comparator (Python sorts are stable;
for a total preorder comparator any stable sort yields this unique result). -/
def ordInsert {α : Type} (le : α → α → Bool) (a : α) : List α → List α
  | [] => [a]
  | b :: l => if le a b then a :: b :: l else b :: ordInsert le a l

def insSortBy {α : Type} (le : α → α → Bool) : List α → List α
  | [] => []
  | a :: l => ordInsert le a (insSortBy le l)

/-- `sorted(items, key=lambda item: float(item[0]) if str(item[0]).isdigit()
else item[0])`: comparing a float key with a string key raises `TypeError`,
which happens exactly when both kinds are present. -/
def pySortedPairsByKey (items : List (String × String)) :
    Except PyErr (List (String × String)) :=
  let hasNum := items.any (fun p => pyIsDigitStr p.1)
  let hasStr := items.any (fun p => !pyIsDigitStr p.1)
  if hasNum && hasStr then .error .typeError
  else .ok (insSortBy (fun a b => sortKeyLe (sortKeyOf a.1) (sortKeyOf b.1)) items)

/-- The XML-directory scan of `detection_label_names_from_source`: walk the
annotation root, parse each file with a matching suffix, and collect the
nonempty `<object><name>` texts. -/
def xmlScanLabels (fs : FS) (annotationRoot ext : String) : List String :=
  (fs.walkFiles annotationRoot).foldl
    (fun ls rf =>
      if strEndsWith rf.2 ext then
        match fs.xmlFile (pyJoin rf.1 rf.2) with
        | none => ls
        | some doc =>
          doc.objects.foldl
            (fun acc obj =>
              match obj.name with
              | some nm => if nm ≠ "" then acc ++ [nm] else acc
              | none => acc)
            ls
      else ls)
    []

/-- The per-box body of the JSON label-names loop:
`label = (box.get("label") or "").strip(); if label: labels.add(label)`. -/
def jsonNamesBoxStep (ls2 : List String) (box : JVal) : Except PyErr (List String) := do
  let label ← jBoxLabel box
  if label ≠ "" then pure (ls2 ++ [label]) else pure ls2

/-- The per-entry body of the JSON label-names loop: non-dict entries are
skipped; a dict entry's `boxes` value is iterated. -/
def jsonNamesEntryStep (ls : List String) (entry : JVal) : Except PyErr (List String) :=
  match entry with
  | .obj ekvs => do
    let boxItems ← jIter ((jget ekvs "boxes").getD (.arr []))
    boxItems.foldlM jsonNamesBoxStep ls
  | _ => .ok ls

/-- `detection_label_names_from_source` from `detection_defaults.py`: the
public label-names entry point. -/
def detection_label_names_from_source (fs : FS) (ds : Dataset) :
    Except PyErr (List String) :=
  let ann := ds.annotation_source.getD {}
  let cfg := ann.config.getD {}
  let fmt := pyLower (pyOrStr ann.format "")
  if fmt = "folder" then
    let extension := cfg.file_extension
    let representation := pyLower (pyOrStr cfg.annotation_representation "yolo")
    let extFalsy := match extension with | none => true | some s => s = ""
    if extension = some ".xml" || (extFalsy && representation = "pascal_voc") then
      let annotationRoot := resolve_annotation_path ds cfg.path
      if annotationRoot = "" || !fs.isdir annotationRoot then .ok []
      else
        let ext := pyOrStr extension ".xml"
        .ok (sortedStrs (xmlScanLabels fs annotationRoot ext))
    else
      let labelMap := dofList (cfg.label_map.getD [])
      if !(dkeys labelMap).isEmpty then do
        let entries ← pySortedPairsByKey ((ditems labelMap).filter (fun p => p.2 ≠ ""))
        return entries.map (·.2)
      else .ok []
  else if fmt = "json" then
    let jsonPath := resolve_annotation_path ds cfg.path
    if jsonPath = "" then .ok []
    else
      match fs.jsonFile jsonPath with
      | none => .ok []
      | some payload => do
        let entries ← jsonEntriesOf payload
        match entries with
        | .arr entryList => do
          let labels ← entryList.foldlM jsonNamesEntryStep []
          return sortedStrs labels
        | _ => return []
  else if fmt = "csv" then .ok (detection_label_names_from_csv fs ds cfg)
  else .ok []

/-! ## Concrete test fixtures

Small datasets, file systems and annotation sources used to evaluate the
engine at concrete inputs. -/

namespace Fix

def csvCfg : SourceCfg :=
  { path := some "/ann/a.csv", image_column := some "img", annotation_column := some "ann",
    label_column := some "lab", negative_value := some "none" }

def csvDs : Dataset :=
  { data_root := "/data", class_names := ["cat"],
    annotation_source := some { format := some "csv", config := some csvCfg } }

def csvFs (rows : List Row) : FS :=
  { csvRows := fun p => if p = "/ann/a.csv" then some rows else none }

def csvFiles : List String := ["/data/set/img001.jpg"]

/-- Two rows matching the negative value (one with stray geometry), then a
normal geometric row, all for the same file. -/
def rowsNeg : List Row :=
  [[("img", "set/img001.jpg"), ("lab", "NONE"), ("ann", "0.5 0.5 0.4 0.2")],
   [("img", "set/img001.jpg"), ("lab", "none"), ("ann", "")],
   [("img", "set/img001.jpg"), ("lab", "cat"), ("ann", "0.5 0.5 0.4 0.2")]]

/-- A single negative row. -/
def rowsNegOnly : List Row :=
  [[("img", "set/img001.jpg"), ("lab", "NONE"), ("ann", "")]]

/-- A matching row whose geometry column is empty. -/
def rowsEmptyGeom : List Row :=
  [[("img", "set/img001.jpg"), ("lab", "cat"), ("ann", "")]]

/-- A row referencing its file by bare basename only. -/
def rowsBase : List Row :=
  [[("img", "img001.jpg"), ("lab", "cat"), ("ann", "0.5 0.5 0.4 0.2")]]

def xmlCfg : SourceCfg := { path := some "/ann", file_extension := some ".xml" }

def xmlDs : Dataset :=
  { data_root := "/data", class_names := [],
    annotation_source := some { format := some "folder", config := some xmlCfg } }

/-- A 100×100 image with one box reaching from pixel 50 to pixel 150: the
normalized box overflows the right edge. -/
def xmlDoc1 : XmlDoc :=
  { size := some { width := some (some "100"), height := some (some "100") },
    objects := [{ name := some "cat",
                  bndbox := some { xmin := some "50", ymin := some "0",
                                   xmax := some "150", ymax := some "50" } }] }

def xmlFs : FS :=
  { isdir := fun p => p = "/ann",
    xmlFile := fun p => if p = "/ann/img1.xml" then some xmlDoc1 else none }

def folderCfg : SourceCfg := { path := some "/ann" }

def folderDs : Dataset :=
  { data_root := "/data", class_names := ["cat"],
    annotation_source := some { format := some "folder", config := some folderCfg } }

/-- A regular 5-token YOLO sidecar line. -/
def folderFs : FS :=
  { isdir := fun p => p = "/ann",
    textLines := fun p => if p = "/ann/img1.txt" then some ["0 0.5 0.5 0.4 0.2"] else none }

/-- A 2-token sidecar line whose second token packs four comma-separated
numbers. -/
def folderCommaFs : FS :=
  { isdir := fun p => p = "/ann",
    textLines := fun p => if p = "/ann/img1.txt" then some ["0 0.5,0.5,0.4,0.2"] else none }

def jsonCfg : SourceCfg := { path := some "/ann/a.json" }

def jsonDs : Dataset :=
  { data_root := "/data",
    annotation_source := some { format := some "json", config := some jsonCfg } }

/-- A JSON annotation file whose top level is the number 5. -/
def jsonBadFs : FS :=
  { jsonFile := fun p => if p = "/ann/a.json" then some (.num 5) else none }

/-- An entry referencing its file by bare basename, with one valid box. -/
def jsonBasePayload : JVal :=
  .arr [.obj [("path", .str "img001.jpg"),
    ("boxes", .arr [.obj [("label", .str "cat"), ("x", .num (mkRat 1 10)),
      ("y", .num (mkRat 1 5)), ("width", .num (mkRat 3 10)),
      ("height", .num (mkRat 2 5))]])]]

def jsonBaseFs : FS :=
  { jsonFile := fun p => if p = "/ann/a.json" then some jsonBasePayload else none }

/-- A folder source whose inline label map mixes a digit key with a non-digit
key. -/
def mixedDs : Dataset :=
  { annotation_source := some
      { format := some "folder",
        config := some { label_map := some [("0", "a"), ("b", "c")] } } }

/-- A folder source whose inline label map is out of label order and holds a
duplicate label. -/
def inlineDs : Dataset :=
  { annotation_source := some
      { format := some "folder",
        config := some { label_map := some [("0", "zebra"), ("1", "ape"), ("2", "ape")] } } }

def lmCfg : SourceCfg := { path := some "/ann", label_map_file := some "/lm.txt" }

/-- A folder source carrying only an external label-map file. -/
def lmDs : Dataset :=
  { data_root := "/data",
    annotation_source := some { format := some "folder", config := some lmCfg } }

def lmFs : FS :=
  { isdir := fun p => p = "/ann",
    textLines := fun p => if p = "/lm.txt" then some ["0 cat"] else none }

end Fix

/-! # Verification

Invariant definitions and supporting lemmas, followed by one theorem per
claim. -/

/-- The full clamp invariant of the spec (with the tolerance rendered
exactly): coordinates in `[0,1]`, strictly positive extent, no corner
overflow. -/
def Geom4 (t : ℚ × ℚ × ℚ × ℚ) : Prop :=
  0 ≤ t.1 ∧ t.1 ≤ 1 ∧ 0 ≤ t.2.1 ∧ t.2.1 ≤ 1 ∧ 0 < t.2.2.1 ∧ 0 < t.2.2.2 ∧
    t.1 + t.2.2.1 ≤ 1 ∧ t.2.1 + t.2.2.2 ≤ 1

/-- The full clamp invariant on a produced box. -/
def GeomInv (b : Box) : Prop :=
  0 ≤ b.x ∧ b.x ≤ 1 ∧ 0 ≤ b.y ∧ b.y ≤ 1 ∧ 0 < b.width ∧ 0 < b.height ∧
    b.x + b.width ≤ 1 ∧ b.y + b.height ≤ 1

/-- The weaker per-coordinate invariant: each of `x`, `y`, `width`, `height`
lies in `[0,1]` and the extent is strictly positive (no corner-overflow
guarantee). -/
def ClampInv (b : Box) : Prop :=
  0 ≤ b.x ∧ b.x ≤ 1 ∧ 0 ≤ b.y ∧ b.y ≤ 1 ∧ 0 < b.width ∧ b.width ≤ 1 ∧
    0 < b.height ∧ b.height ≤ 1

/-- The shape of a CSV negative placeholder. -/
def NegShape (b : Box) : Prop := b.x = 0 ∧ b.y = 0 ∧ b.width = 0 ∧ b.height = 0

/-- Every box of every list bound in the result map satisfies `P`. -/
def DictAllBoxes (m : Dict (List Box)) (P : Box → Prop) : Prop :=
  ∀ p ∈ ditems m, ∀ b ∈ p.2, P b

/-! ## Dictionary lemmas -/

theorem dget_dset_self {α : Type} (m : Dict α) (k : String) (v : α) :
    dget (dset m k v) k = some v := by
  induction m with
  | nil => simp [dget, dset]
  | cons p rest ih =>
    rcases p with ⟨k0, v0⟩
    by_cases h : k0 = k
    · simp [dget, dset, h]
    · simpa [dget, dset, h] using ih

theorem dget_dset_ne {α : Type} (m : Dict α) (k k2 : String) (v : α) (h : k2 ≠ k) :
    dget (dset m k v) k2 = dget m k2 := by
  induction m with
  | nil => simp [dget, dset, Ne.symm h]
  | cons p rest ih =>
    rcases p with ⟨k0, v0⟩
    by_cases hp : k0 = k
    · subst hp
      simp [dget, dset, Ne.symm h, fun hh : k0 = k2 => h (hh ▸ rfl)]
    · by_cases hp2 : k0 = k2
      · simp [dget, dset, hp, hp2, h]
      · simpa [dget, dset, hp, hp2] using ih

theorem mem_dset {α : Type} {m : Dict α} {k : String} {v : α} {p : String × α}
    (h : p ∈ dset m k v) : p ∈ m ∨ p = (k, v) := by
  induction m with
  | nil => simpa [dset] using h
  | cons q rest ih =>
    rcases q with ⟨k0, v0⟩
    by_cases hq : k0 = k
    · simp only [dset, if_pos hq] at h
      rcases List.mem_cons.mp h with h1 | h1
      · right; exact h1
      · left; exact List.mem_cons_of_mem _ h1
    · simp only [dset, if_neg hq] at h
      rcases List.mem_cons.mp h with h1 | h1
      · left; exact h1 ▸ List.mem_cons_self _ _
      · rcases ih h1 with h2 | h2
        · left; exact List.mem_cons_of_mem _ h2
        · right; exact h2

theorem dget_mem {α : Type} {m : Dict α} {k : String} {v : α}
    (h : dget m k = some v) : (k, v) ∈ m := by
  induction m with
  | nil => simp [dget] at h
  | cons p rest ih =>
    rcases p with ⟨k0, v0⟩
    by_cases hp : k0 = k
    · subst hp
      have h2 : v0 = v := by simpa [dget] using h
      subst h2
      exact List.mem_cons_self _ _
    · simp only [dget, if_neg hp] at h
      exact List.mem_cons_of_mem _ (ih h)

/-- Keys of an updated dict come from the new key or the old keys. -/
theorem mem_dkeys_dset {α : Type} {m : Dict α} {k k2 : String} {v : α}
    (h : k2 ∈ dkeys (dset m k v)) : k2 ∈ dkeys m ∨ k2 = k := by
  rcases List.mem_map.mp h with ⟨p, hp, hpk⟩
  rcases mem_dset hp with h1 | h1
  · left; exact hpk ▸ List.mem_map_of_mem _ h1
  · right; rw [← hpk, h1]

/-! ## Fold lemmas -/

theorem exceptFold_inv {α β : Type} (f : β → α → Except PyErr β) (P : β → Prop) :
    ∀ (l : List α) (b b2 : β),
      (∀ b a b2, a ∈ l → f b a = .ok b2 → P b → P b2) →
      l.foldlM f b = .ok b2 → P b → P b2 := by
  intro l
  induction l with
  | nil =>
    intro b b2 _ hfold hb
    simp only [List.foldlM] at hfold
    cases hfold
    exact hb
  | cons a l ih =>
    intro b b2 hstep hfold hb
    simp only [List.foldlM] at hfold
    cases hfa : f b a with
    | error e => rw [hfa] at hfold; simp [Bind.bind, Except.bind] at hfold
    | ok b1 =>
      rw [hfa] at hfold
      simp only [Bind.bind, Except.bind] at hfold
      exact ih b1 b2 (fun b a2 b2 ha => hstep b a2 b2 (List.mem_cons_of_mem _ ha))
        hfold (hstep b a b1 (List.mem_cons_self _ _) hfa hb)

theorem exceptFold_ok {α β : Type} (f : β → α → Except PyErr β) :
    ∀ (l : List α) (b : β),
      (∀ b a, a ∈ l → ∃ b2, f b a = .ok b2) → ∃ b2, l.foldlM f b = .ok b2 := by
  intro l
  induction l with
  | nil => intro b _; exact ⟨b, rfl⟩
  | cons a l ih =>
    intro b hstep
    rcases hstep b a (List.mem_cons_self _ _) with ⟨b1, hb1⟩
    rcases ih b1 (fun b a2 ha => hstep b a2 (List.mem_cons_of_mem _ ha)) with ⟨b2, hb2⟩
    refine ⟨b2, ?_⟩
    simp only [List.foldlM, hb1, Bind.bind, Except.bind]
    exact hb2

theorem foldl_inv {α β : Type} (f : β → α → β) (P : β → Prop) :
    ∀ (l : List α) (b : β),
      (∀ b a, a ∈ l → P b → P (f b a)) → P b → P (l.foldl f b) := by
  intro l
  induction l with
  | nil => intro b _ hb; exact hb
  | cons a l ih =>
    intro b hstep hb
    exact ih (f b a) (fun b a2 ha => hstep b a2 (List.mem_cons_of_mem _ ha))
      (hstep b a (List.mem_cons_self _ _) hb)

/-! ## The reducible arithmetic agrees with the standard operations -/

theorem qadd_eq (a b : ℚ) : qadd a b = a + b := by
  have ha : ((a.den : ℚ)) ≠ 0 := by exact_mod_cast a.den_nz
  have hb : ((b.den : ℚ)) ≠ 0 := by exact_mod_cast b.den_nz
  rw [qadd, Rat.divInt_eq_div]
  conv_rhs => rw [← Rat.num_div_den a, ← Rat.num_div_den b]
  push_cast
  field_simp

theorem qneg_eq (a : ℚ) : qneg a = -a := by
  have ha : ((a.den : ℚ)) ≠ 0 := by exact_mod_cast a.den_nz
  rw [qneg, Rat.divInt_eq_div]
  conv_rhs => rw [← Rat.num_div_den a]
  push_cast
  field_simp

theorem qsub_eq (a b : ℚ) : qsub a b = a - b := by
  rw [qsub, qadd_eq, qneg_eq]
  ring

theorem qmul_eq (a b : ℚ) : qmul a b = a * b := by
  have ha : ((a.den : ℚ)) ≠ 0 := by exact_mod_cast a.den_nz
  have hb : ((b.den : ℚ)) ≠ 0 := by exact_mod_cast b.den_nz
  rw [qmul, Rat.divInt_eq_div]
  conv_rhs => rw [← Rat.num_div_den a, ← Rat.num_div_den b]
  push_cast
  field_simp

theorem qdiv_eq (a b : ℚ) : qdiv a b = a / b := by
  by_cases hb : b = 0
  · subst hb
    rw [qdiv, div_zero]
    norm_num
  · have ha : ((a.den : ℚ)) ≠ 0 := by exact_mod_cast a.den_nz
    have hbd : ((b.den : ℚ)) ≠ 0 := by exact_mod_cast b.den_nz
    have hbn : ((b.num : ℚ)) ≠ 0 := by exact_mod_cast Rat.num_ne_zero.mpr hb
    rw [qdiv, Rat.divInt_eq_div]
    conv_rhs => rw [← Rat.num_div_den a, ← Rat.num_div_den b]
    push_cast
    field_simp

theorem qpow10_eq (k : Nat) : qpow10 k = (10 : ℚ) ^ k := by
  rw [qpow10, Rat.divInt_one]
  push_cast
  ring

theorem qabs_eq (a : ℚ) : qabs a = |a| := by
  rw [qabs]
  split_ifs with h
  · rw [qneg_eq, abs_of_neg h]
  · rw [abs_of_nonneg (le_of_not_lt h)]

/-! ## Geometry invariant lemmas -/

/-- After shrinking to `max 0 (1 - a)`, a strictly positive result means the
corner lands exactly on 1. -/
theorem max_shrink_le {a : ℚ} (hpos : 0 < max 0 (1 - a)) : a + max 0 (1 - a) ≤ 1 := by
  rcases le_total (1 - a) 0 with hle | hle
  · rw [max_eq_left hle] at hpos
    exact absurd hpos (lt_irrefl 0)
  · rw [max_eq_right hle]
    linarith

theorem normalize_bbox_clamp_geom {x y w h : ℚ} {t : ℚ × ℚ × ℚ × ℚ}
    (ht : normalize_bbox_clamp x y w h = some t) : Geom4 t := by
  dsimp only [normalize_bbox_clamp] at ht
  simp only [qadd_eq, qsub_eq] at ht
  have hx0 : (0 : ℚ) ≤ max 0 (min x 1) := le_max_left _ _
  have hx1 : max 0 (min x 1) ≤ 1 := max_le (by norm_num) (min_le_right _ _)
  have hy0 : (0 : ℚ) ≤ max 0 (min y 1) := le_max_left _ _
  have hy1 : max 0 (min y 1) ≤ 1 := max_le (by norm_num) (min_le_right _ _)
  split_ifs at ht with h1 h2 h3 h4 h5 h6 h7 <;>
    injection ht with ht <;> subst ht <;> push_neg at *
  · exact ⟨hx0, hx1, hy0, hy1, h4.1, h4.2, max_shrink_le h4.1, max_shrink_le h4.2⟩
  · exact ⟨hx0, hx1, hy0, hy1, h5.1, h5.2, max_shrink_le h5.1, h3⟩
  · exact ⟨hx0, hx1, hy0, hy1, h7.1, h7.2, h2, max_shrink_le h7.2⟩
  · exact ⟨hx0, hx1, hy0, hy1, h1.1, h1.2, h2, h6⟩

theorem normalize_bbox_geom {x y w h : ℚ} {dims : Dims} {t : ℚ × ℚ × ℚ × ℚ}
    (ht : normalize_bbox x y w h dims = some t) : Geom4 t := by
  dsimp only [normalize_bbox] at ht
  rcases dims with _ | ⟨iw, ihh⟩
  · exact normalize_bbox_clamp_geom ht
  · dsimp only at ht
    split_ifs at ht <;> exact normalize_bbox_clamp_geom ht

theorem from_corners_geom {x1 y1 x2 y2 : ℚ} {dims : Dims} {t : ℚ × ℚ × ℚ × ℚ}
    (ht : from_corners x1 y1 x2 y2 dims = some t) : Geom4 t :=
  normalize_bbox_geom ht

theorem bbox_from_yolo_geom {numbers : List ℚ} {t : ℚ × ℚ × ℚ × ℚ}
    (ht : bbox_from_yolo_numbers numbers = some t) : Geom4 t := by
  dsimp only [bbox_from_yolo_numbers] at ht
  split_ifs at ht
  exact normalize_bbox_geom ht

theorem bbox_from_pascal_geom {numbers : List ℚ} {dims : Dims} {t : ℚ × ℚ × ℚ × ℚ}
    (ht : bbox_from_pascal_numbers numbers dims = some t) : Geom4 t := by
  rcases dims with _ | ⟨iw, ihh⟩ <;> dsimp only [bbox_from_pascal_numbers] at ht
  · exact Option.noConfusion ht
  · split_ifs at ht <;>
      first
        | exact normalize_bbox_geom ht
        | exact Option.noConfusion ht

theorem bbox_from_coco_geom {numbers : List ℚ} {dims : Dims} {t : ℚ × ℚ × ℚ × ℚ}
    (ht : bbox_from_coco_numbers numbers dims = some t) : Geom4 t := by
  rcases dims with _ | ⟨iw, ihh⟩ <;> dsimp only [bbox_from_coco_numbers] at ht
  · exact Option.noConfusion ht
  · split_ifs at ht <;>
      first
        | exact normalize_bbox_geom ht
        | exact Option.noConfusion ht

theorem bbox_from_scanned_geom {value : String} {dims : Dims} {t : ℚ × ℚ × ℚ × ℚ}
    (ht : bbox_from_scanned_numbers value dims = some t) : Geom4 t := by
  dsimp only [bbox_from_scanned_numbers] at ht
  split_ifs at ht <;>
    first
      | exact normalize_bbox_geom ht
      | exact Option.noConfusion ht

theorem parse_json_bbox_geom {data : JVal} {dims : Dims} {t : ℚ × ℚ × ℚ × ℚ}
    (ht : parse_json_bbox data dims = .ok (some t)) : Geom4 t := by
  rcases data with _ | b | q | s | xs | kvs <;> dsimp only [parse_json_bbox] at ht
  all_goals try exact Option.noConfusion (Except.ok.inj ht)
  · -- list case
    split_ifs at ht
    · split at ht
      · exact Except.noConfusion ht
      · exact normalize_bbox_geom (Except.ok.inj ht)
    · exact Option.noConfusion (Except.ok.inj ht)
  · -- dict case
    split_ifs at ht with hxy hcorners
    · split at ht
      · exact Except.noConfusion ht
      · exact normalize_bbox_geom (Except.ok.inj ht)
    · split at ht
      · exact Except.noConfusion ht
      · exact from_corners_geom (Except.ok.inj ht)
    · split at ht
      all_goals try exact Option.noConfusion (Except.ok.inj ht)
      split_ifs at ht
      · split at ht
        · exact Except.noConfusion ht
        · exact normalize_bbox_geom (Except.ok.inj ht)
      · exact Option.noConfusion (Except.ok.inj ht)

theorem parse_bbox_from_value_geom {value : String} {dims : Dims} {t : ℚ × ℚ × ℚ × ℚ}
    (ht : parse_bbox_from_value value dims = .ok (some t)) : Geom4 t := by
  dsimp only [parse_bbox_from_value] at ht
  split at ht
  · split at ht
    · exact Except.noConfusion ht
    · have hb := Option.some.inj (Except.ok.inj ht)
      exact hb ▸ parse_json_bbox_geom (by assumption)
    · exact bbox_from_scanned_geom (Except.ok.inj ht)
  · exact bbox_from_scanned_geom (Except.ok.inj ht)

/-- Every tuple successfully produced by the geometry-normalizing entry point
satisfies the full clamp invariant. -/
theorem parse_detection_bbox_geom {value : String} {dims : Dims}
    {representation : Option String} {t : ℚ × ℚ × ℚ × ℚ}
    (ht : parse_detection_bbox value dims representation = .ok (some t)) : Geom4 t := by
  dsimp only [parse_detection_bbox] at ht
  split_ifs at ht
  · injection ht with ht; exact bbox_from_yolo_geom ht
  · injection ht with ht; exact bbox_from_pascal_geom ht
  · injection ht with ht; exact bbox_from_coco_geom ht
  · exact parse_bbox_from_value_geom ht

/-- The three named representations never raise. -/
theorem parse_detection_bbox_no_throw {value : String} {dims : Dims}
    {representation : Option String}
    (hrep : pyLower (pyOrStr representation "yolo") = "yolo" ∨
      pyLower (pyOrStr representation "yolo") = "pascal_voc" ∨
      pyLower (pyOrStr representation "yolo") = "coco_bbox") :
    ∃ r, parse_detection_bbox value dims representation = .ok r := by
  dsimp only [parse_detection_bbox]
  rcases hrep with h | h | h <;> simp [h]

/-! ## Per-parser box invariants -/

theorem clamp_bounds (v : ℚ) : 0 ≤ clamp v ∧ clamp v ≤ 1 :=
  ⟨le_max_left _ _, max_le (by norm_num) (min_le_left _ _)⟩

theorem clamp_shrink_le {x : ℚ} (hx0 : 0 ≤ x) (hpos : 0 < clamp (1 - x)) :
    x + clamp (1 - x) ≤ 1 := by
  have hm : min 1 (1 - x) = 1 - x := min_eq_right (by linarith)
  dsimp only [clamp] at *
  rw [hm] at hpos ⊢
  exact max_shrink_le hpos

theorem dictAllBoxes_empty (P : Box → Prop) : DictAllBoxes dempty P := by
  intro p hp
  simp [dempty, ditems] at hp

theorem dictAllBoxes_dset {m : Dict (List Box)} {P : Box → Prop} {k : String}
    {bs : List Box} (hm : DictAllBoxes m P) (hbs : ∀ b ∈ bs, P b) :
    DictAllBoxes (dset m k bs) P := by
  intro p hp b hb
  rcases mem_dset hp with h | h
  · exact hm p h b hb
  · subst h
    exact hbs b hb

theorem dgetD_boxes_inv {m : Dict (List Box)} {P : Box → Prop} {k : String}
    (hm : DictAllBoxes m P) : ∀ b ∈ dgetD m k [], P b := by
  intro b hb
  dsimp only [dgetD] at hb
  rcases hg : dget m k with _ | bs
  · rw [hg] at hb
    simp at hb
  · rw [hg] at hb
    exact hm (k, bs) (dget_mem hg) b hb

/-- A successful folder sidecar line yields a geometric (non-negative,
fully-clamped) box. -/
theorem folderLineBox_geom {labelMap : Dict String} {classNames : List String}
    {dims : Dims} {representation raw : String} {b : Box}
    (hb : folderLineBox labelMap classNames dims representation raw = .ok (some b)) :
    GeomInv b ∧ b.negative = false := by
  dsimp only [folderLineBox] at hb
  split_ifs at hb
  · exact Option.noConfusion (Except.ok.inj hb)
  · rcases hp : parse_detection_bbox
        (joinWith " " ((pySplitWs (pyStrip raw)).drop 1)) dims
        (some representation) with e | ob <;> rw [hp] at hb
    · exact Except.noConfusion hb
    · rcases ob with _ | ⟨x, y, w, h⟩
      · exact Option.noConfusion (Except.ok.inj hb)
      · have hbeq := Option.some.inj (Except.ok.inj hb)
        subst hbeq
        refine ⟨?_, rfl⟩
        simpa [GeomInv, Geom4] using parse_detection_bbox_geom hp

/-- The boxes of one sidecar file all satisfy the full invariant. -/
theorem folderFileBoxes_geom {labelMap : Dict String} {classNames : List String}
    {dims : Dims} {representation : String} {ls : List String} {boxes : List Box}
    (hfold : folderFileBoxes labelMap classNames dims representation ls = .ok boxes) :
    ∀ b ∈ boxes, GeomInv b ∧ b.negative = false := by
  refine exceptFold_inv _ (fun bs => ∀ b ∈ bs, GeomInv b ∧ b.negative = false)
    ls [] boxes ?_ hfold (by intro b hb; simp at hb)
  intro bs raw bs2 _ hline hbs
  rcases hlb : folderLineBox labelMap classNames dims representation raw with e | ob <;>
    rw [hlb] at hline
  · exact Except.noConfusion hline
  · rcases ob with _ | b
    · cases hline
      exact hbs
    · cases hline
      intro b2 hb2
      rcases List.mem_append.mp hb2 with h | h
      · exact hbs b2 h
      · rw [List.mem_singleton.mp h]
        exact folderLineBox_geom hlb

/-- One step of the folder text path preserves the per-box invariant. -/
theorem folderFileStep_geom {fs : FS} {ds : Dataset} {cfg : SourceCfg}
    {annotationRoot dataRoot : String} {d d2 : Dict (List Box)} {imagePath : String}
    (hstep : folderFileStep fs ds cfg annotationRoot dataRoot d imagePath = .ok d2)
    (hd : DictAllBoxes d (fun b => GeomInv b ∧ b.negative = false)) :
    DictAllBoxes d2 (fun b => GeomInv b ∧ b.negative = false) := by
  dsimp only [folderFileStep] at hstep
  split at hstep
  · cases hstep
    exact hd
  · split at hstep
    · exact Except.noConfusion hstep
    · cases hstep
      split
      · exact hd
      · exact dictAllBoxes_dset hd (folderFileBoxes_geom (by assumption))

/-- Every box placed in the map by the folder text path satisfies the full
invariant. -/
theorem defaults_from_folder_text_geom {fs : FS} {ds : Dataset} {files : List String}
    {cfg : SourceCfg} {m : Dict (List Box)}
    (hext : pyLower (folderExtension cfg) ≠ ".xml")
    (hm : defaults_from_folder fs ds files cfg = .ok m) :
    DictAllBoxes m (fun b => GeomInv b ∧ b.negative = false) := by
  dsimp only [defaults_from_folder] at hm
  split at hm
  · cases hm
    exact dictAllBoxes_empty _
  all_goals try split at hm
  all_goals first
    | exact absurd (by assumption) hext
    | exact exceptFold_inv _ (fun d => DictAllBoxes d (fun b => GeomInv b ∧ b.negative = false))
        files dempty m (fun d a d2 _ hstep hd => folderFileStep_geom hstep hd) hm
        (dictAllBoxes_empty _)

/-- One XML object step preserves the per-coordinate clamp invariant; an
appended box is strictly positive in extent and coordinate-clamped. -/
theorem xmlObjStep_clamp {labelMap : Dict String} {width height : Int}
    {bs : List Box} {obj : XmlObj}
    (hbs : ∀ b ∈ bs, ClampInv b ∧ b.negative = false) :
    ∀ b ∈ xmlObjStep labelMap width height bs obj, ClampInv b ∧ b.negative = false := by
  dsimp only [xmlObjStep]
  rcases obj.name with _ | nm
  · exact hbs
  · dsimp only
    split_ifs with hnm
    · exact hbs
    · rcases obj.bndbox with _ | bb
      · exact hbs
      · dsimp only
        rcases bndboxCoords bb with _ | ⟨xmin, ymin, xmax, ymax⟩
        · exact hbs
        · dsimp only
          split_ifs with hdeg
          · exact hbs
          · push_neg at hdeg
            intro b hb
            rcases List.mem_append.mp hb with h | h
            · exact hbs b h
            · rw [List.mem_singleton.mp h]
              exact ⟨⟨(clamp_bounds _).1, (clamp_bounds _).2, (clamp_bounds _).1,
                (clamp_bounds _).2, hdeg.1, (clamp_bounds _).2, hdeg.2, (clamp_bounds _).2⟩, rfl⟩

/-- Every box emitted for one XML document satisfies the per-coordinate clamp
invariant (the XML parser does not shrink on corner overflow). -/
theorem xmlDocBoxes_clamp {labelMap : Dict String} {width height : Int} {doc : XmlDoc} :
    ∀ b ∈ xmlDocBoxes labelMap width height doc, ClampInv b ∧ b.negative = false := by
  dsimp only [xmlDocBoxes]
  exact foldl_inv _ (fun bs => ∀ b ∈ bs, ClampInv b ∧ b.negative = false)
    doc.objects [] (fun bs obj _ hbs => xmlObjStep_clamp hbs) (by intro b hb; simp at hb)

/-- Every box placed in the map by the Pascal-VOC XML parser satisfies the
per-coordinate clamp invariant. -/
theorem defaults_from_pascal_voc_xml_clamp {fs : FS} {ds : Dataset}
    {files : List String} {cfg : SourceCfg} :
    DictAllBoxes (defaults_from_pascal_voc_xml fs ds files cfg)
      (fun b => ClampInv b ∧ b.negative = false) := by
  dsimp only [defaults_from_pascal_voc_xml]
  split
  · exact dictAllBoxes_empty _
  · refine foldl_inv _ (fun d => DictAllBoxes d (fun b => ClampInv b ∧ b.negative = false))
      files dempty ?_ (dictAllBoxes_empty _)
    intro d a _ hd
    dsimp only
    rcases fs.xmlFile (annotation_file_for a (expand (some ds.data_root))
        (resolve_annotation_path ds cfg.path) (pyOrStr cfg.file_extension ".xml")) with _ | doc
    · exact hd
    · dsimp only
      split_ifs <;>
        first
          | exact hd
          | exact dictAllBoxes_dset hd xmlDocBoxes_clamp

/-- The per-box invariant of the CSV parser: a negative placeholder is
zero-size, any other box satisfies the full clamp invariant. -/
def CsvBoxInv (b : Box) : Prop :=
  (b.negative = true ∧ NegShape b) ∨ (b.negative = false ∧ GeomInv b)

theorem negative_placeholder_inv (label : String) : CsvBoxInv (negative_placeholder label) := by
  left
  dsimp only [negative_placeholder]
  exact ⟨rfl, rfl, rfl, rfl, rfl⟩

theorem dictAllBoxes_dsetdefault {m : Dict (List Box)} {P : Box → Prop} {k : String}
    (hm : DictAllBoxes m P) : DictAllBoxes (dsetdefault m k []) P := by
  dsimp only [dsetdefault]
  split
  · exact hm
  · exact dictAllBoxes_dset hm (by intro b hb; simp at hb)

/-- The matched-row body preserves the per-box invariant. -/
theorem csvMatchedStep_inv {fs : FS} {ds : Dataset}
    {rep negValue labelCol annCol : String} {d d2 : Dict (List Box)}
    {normPath origFile : String} {row : Row}
    (hstep : csvMatchedStep fs ds rep negValue labelCol annCol d normPath origFile row = .ok d2)
    (hd : DictAllBoxes d CsvBoxInv) : DictAllBoxes d2 CsvBoxInv := by
  have hd1 : DictAllBoxes (dsetdefault d normPath []) CsvBoxInv := dictAllBoxes_dsetdefault hd
  dsimp only [csvMatchedStep] at hstep
  split_ifs at hstep with hneg hhas hgeom
  · cases hstep
    exact hd1
  · cases hstep
    refine dictAllBoxes_dset hd1 ?_
    intro b hb
    rcases List.mem_append.mp hb with h | h
    · exact dgetD_boxes_inv hd1 b h
    · rw [List.mem_singleton.mp h]
      exact negative_placeholder_inv _
  · cases hstep
    exact hd1
  · split at hstep
    · exact Except.noConfusion hstep
    · cases hstep
      exact hd1
    · cases hstep
      refine dictAllBoxes_dset hd1 ?_
      intro b hb
      rcases List.mem_append.mp hb with h | h
      · exact dgetD_boxes_inv hd1 b h
      · rw [List.mem_singleton.mp h]
        right
        refine ⟨rfl, ?_⟩
        simpa [GeomInv, Geom4] using parse_detection_bbox_geom (by assumption)

/-- One CSV row step preserves the per-box invariant. -/
theorem csvRowStep_inv {fs : FS} {ds : Dataset} {filesSet : Dict String}
    {dataRoot rep negValue labelCol imageCol annCol : String}
    {d d2 : Dict (List Box)} {row : Row}
    (hstep : csvRowStep fs ds filesSet dataRoot rep negValue labelCol imageCol annCol d row = .ok d2)
    (hd : DictAllBoxes d CsvBoxInv) : DictAllBoxes d2 CsvBoxInv := by
  dsimp only [csvRowStep] at hstep
  split_ifs at hstep
  · cases hstep
    exact hd
  · split at hstep
    · cases hstep
      exact hd
    · exact csvMatchedStep_inv hstep hd

/-- Every box in the CSV parser's result satisfies the per-box invariant. -/
theorem detection_defaults_from_csv_inv {fs : FS} {ds : Dataset}
    {files : List String} {cfg : SourceCfg} :
    DictAllBoxes (detection_defaults_from_csv fs ds files cfg) CsvBoxInv := by
  dsimp only [detection_defaults_from_csv]
  split
  · exact dictAllBoxes_empty _
  · split
    · exact dictAllBoxes_empty _
    · split
      · exact dictAllBoxes_empty _
      · split
        · exact exceptFold_inv _ (fun d => DictAllBoxes d CsvBoxInv) _ dempty _
            (fun d a d2 _ hstep hd => csvRowStep_inv hstep hd) (by assumption)
            (dictAllBoxes_empty _)
        · exact dictAllBoxes_empty _

/-- One JSON box step preserves the full invariant (the JSON parser clamps,
shrinks on corner overflow, and rejects degenerate boxes). -/
theorem jsonBoxStep_geom {bs : List Box} {box : JVal} {bs2 : List Box}
    (hstep : jsonBoxStep bs box = .ok bs2)
    (hbs : ∀ b ∈ bs, GeomInv b ∧ b.negative = false) :
    ∀ b ∈ bs2, GeomInv b ∧ b.negative = false := by
  dsimp only [jsonBoxStep] at hstep
  simp only [qadd_eq, qsub_eq] at hstep
  split at hstep
  · exact Except.noConfusion hstep
  · split_ifs at hstep with hlab
    · cases hstep
      exact hbs
    · split at hstep
      all_goals try { cases hstep; exact hbs }
      split_ifs at hstep <;> cases hstep
      all_goals first
        | exact hbs
        | (try push_neg at *
           casesm* _ ∧ _
           intro b hb
           rcases List.mem_append.mp hb with h | h
           · exact hbs b h
           · rw [List.mem_singleton.mp h]
             refine ⟨⟨(clamp_bounds _).1, (clamp_bounds _).2, (clamp_bounds _).1,
               (clamp_bounds _).2, ?_, ?_, ?_, ?_⟩, rfl⟩
             all_goals first
               | assumption
               | (apply clamp_shrink_le (clamp_bounds _).1
                  assumption))

/-- The pairwise invariant on the two lookup tables. -/
def LookupsInv (lk : Dict (List Box) × Dict (List Box)) : Prop :=
  DictAllBoxes lk.1 (fun b => GeomInv b ∧ b.negative = false) ∧
    DictAllBoxes lk.2 (fun b => GeomInv b ∧ b.negative = false)

theorem jsonEntryStep_inv {dataRoot : String} {lk lk2 : Dict (List Box) × Dict (List Box)}
    {entry : JVal} (hstep : jsonEntryStep dataRoot lk entry = .ok lk2)
    (hlk : LookupsInv lk) : LookupsInv lk2 := by
  dsimp only [jsonEntryStep] at hstep
  split at hstep
  · split_ifs at hstep with htruthy
    · cases hstep
      exact hlk
    · split at hstep
      · split at hstep
        · exact Except.noConfusion hstep
        · split at hstep
          · exact Except.noConfusion hstep
          · have hgb : ∀ b2 ∈ _, GeomInv b2 ∧ b2.negative = false :=
              exceptFold_inv _ (fun bs => ∀ b2 ∈ bs, GeomInv b2 ∧ b2.negative = false)
                _ [] _ (fun bs a bs2 _ hs hb2 => jsonBoxStep_geom hs hb2) (by assumption)
                (by intro b2 hb2; simp at hb2)
            split_ifs at hstep <;> cases hstep <;>
              constructor <;>
                first
                  | exact hlk.1
                  | exact hlk.2
                  | (intro p hp b hb
                     rcases mem_dset hp with h | h
                     · first
                         | exact hlk.1 p h b hb
                         | exact hlk.2 p h b hb
                     · subst h
                       rcases List.mem_append.mp hb with h2 | h2
                       · first
                           | exact dgetD_boxes_inv hlk.1 b h2
                           | exact dgetD_boxes_inv hlk.2 b h2
                       · exact hgb b h2)
      · exact Except.noConfusion hstep
  · cases hstep
    exact hlk

/-- The final JSON matching loop only copies lists out of the lookups. -/
theorem jsonMatchFiles_inv {files : List String} {lp ln : Dict (List Box)}
    {P : Box → Prop} (hlp : DictAllBoxes lp P) (hln : DictAllBoxes ln P) :
    DictAllBoxes (jsonMatchFiles files lp ln) P := by
  dsimp only [jsonMatchFiles]
  refine foldl_inv _ (fun d => DictAllBoxes d P) files dempty ?_ (dictAllBoxes_empty _)
  intro d a _ hd
  dsimp only
  split_ifs
  · exact dictAllBoxes_dset hd (dgetD_boxes_inv hlp)
  · exact dictAllBoxes_dset hd (dgetD_boxes_inv hln)
  · exact hd

/-- Every box placed in the map by the JSON parser satisfies the full
invariant. -/
theorem defaults_from_json_geom {fs : FS} {ds : Dataset} {files : List String}
    {cfg : SourceCfg} {m : Dict (List Box)}
    (hm : defaults_from_json fs ds files cfg = .ok m) :
    DictAllBoxes m (fun b => GeomInv b ∧ b.negative = false) := by
  dsimp only [defaults_from_json] at hm
  split at hm
  · cases hm
    exact dictAllBoxes_empty _
  · split at hm
    · cases hm
      exact dictAllBoxes_empty _
    · split at hm
      · exact Except.noConfusion hm
      · split at hm
        · exact Except.noConfusion hm
        · rename_i lp ln heq
          dsimp only [jsonBuildLookups] at heq
          have hlk : LookupsInv (lp, ln) :=
            exceptFold_inv _ LookupsInv _ (dempty, dempty) _
              (fun lk e lk2 _ hs hl => jsonEntryStep_inv hs hl) heq
              ⟨dictAllBoxes_empty _, dictAllBoxes_empty _⟩
          split_ifs at hm <;> cases hm
          · exact dictAllBoxes_empty _
          · exact jsonMatchFiles_inv hlk.1 hlk.2
      · cases hm
        exact dictAllBoxes_empty _

theorem dictAllBoxes_mono {m : Dict (List Box)} {P Q : Box → Prop}
    (hm : DictAllBoxes m P) (hpq : ∀ b, P b → Q b) : DictAllBoxes m Q :=
  fun p hp b hb => hpq b (hm p hp b hb)

theorem geomInv_clampInv {b : Box} (h : GeomInv b) : ClampInv b := by
  obtain ⟨hx0, hx1, hy0, hy1, hw, hh, hxw, hyh⟩ := h
  exact ⟨hx0, hx1, hy0, hy1, hw, by linarith, hh, by linarith⟩

/-- Both folder branches guarantee at least the per-coordinate clamp
invariant. -/
theorem defaults_from_folder_clamp {fs : FS} {ds : Dataset} {files : List String}
    {cfg : SourceCfg} {m : Dict (List Box)}
    (hm : defaults_from_folder fs ds files cfg = .ok m) :
    DictAllBoxes m (fun b => ClampInv b ∧ b.negative = false) := by
  by_cases hext : pyLower (folderExtension cfg) = ".xml"
  · dsimp only [defaults_from_folder] at hm
    split at hm
    · cases hm
      exact dictAllBoxes_empty _
    all_goals try split at hm
    all_goals first
      | (cases hm; exact dictAllBoxes_empty _)
      | (cases hm; exact defaults_from_pascal_voc_xml_clamp)
      | exact absurd hext (by assumption)
  · exact dictAllBoxes_mono (defaults_from_folder_text_geom hext hm)
      (fun b hb => ⟨geomInv_clampInv hb.1, hb.2⟩)

/-! ## Claim C1 -/

/-- C1 (counterexample): the claimed clamp invariant fails on the code at two
concrete inputs.  The Pascal-VOC XML folder parser emits a box with
`x + width = 3/2`, exceeding `1 + ε` for any small tolerance; and the CSV
parser emits a negative placeholder box with `width = 0`, violating
`width > 0`. -/
theorem C1_clamp_invariant_counterexample :
    (detection_defaults_for_files Fix.xmlFs Fix.xmlDs ["/data/img1.jpg"] =
        .ok [("/data/img1.jpg",
          [{ label := "cat", x := mkRat 1 2, y := 0, width := 1, height := mkRat 1 2 }])]
      ∧ (mkRat 1 2 : ℚ) + 1 = 3/2 ∧ ¬ ((3 : ℚ)/2 ≤ 1 + 1/4))
    ∧ (detection_defaults_for_files (Fix.csvFs Fix.rowsNegOnly) Fix.csvDs Fix.csvFiles =
        .ok [("/data/set/img001.jpg", [negative_placeholder "NONE"])]
      ∧ ¬ (0 < (negative_placeholder "NONE").width)) := by
  refine ⟨⟨by decide, by norm_num [Rat.mkRat_eq_div], by norm_num⟩,
    by decide, by norm_num [negative_placeholder]⟩

/-- C1 (amended): every box produced by the engine has `x`, `y`, `width`,
`height` in `[0,1]`; geometric boxes of the JSON, folder-text, and CSV
parsers additionally satisfy the exact corner invariants `x + width ≤ 1`,
`y + height ≤ 1` with `width > 0 < height`; the Pascal-VOC XML parser
guarantees only the per-coordinate clamp (no corner-overflow shrinking); and
CSV negative placeholder boxes are exactly zero-size. -/
theorem C1_clamp_invariant_amended :
    (∀ (fs : FS) (ds : Dataset) (files : List String) (m : Dict (List Box)),
        detection_defaults_for_files fs ds files = .ok m →
        DictAllBoxes m (fun b => (ClampInv b ∧ b.negative = false) ∨
          (b.negative = true ∧ NegShape b)))
    ∧ (∀ (fs : FS) (ds : Dataset) (files : List String) (cfg : SourceCfg) (m : Dict (List Box)),
        defaults_from_json fs ds files cfg = .ok m →
        DictAllBoxes m (fun b => GeomInv b ∧ b.negative = false))
    ∧ (∀ (fs : FS) (ds : Dataset) (files : List String) (cfg : SourceCfg) (m : Dict (List Box)),
        pyLower (folderExtension cfg) ≠ ".xml" →
        defaults_from_folder fs ds files cfg = .ok m →
        DictAllBoxes m (fun b => GeomInv b ∧ b.negative = false))
    ∧ (∀ (fs : FS) (ds : Dataset) (files : List String) (cfg : SourceCfg),
        DictAllBoxes (defaults_from_pascal_voc_xml fs ds files cfg)
          (fun b => ClampInv b ∧ b.negative = false))
    ∧ (∀ (fs : FS) (ds : Dataset) (files : List String) (cfg : SourceCfg),
        DictAllBoxes (detection_defaults_from_csv fs ds files cfg) CsvBoxInv) := by
  refine ⟨?_, fun _ _ _ _ _ h => defaults_from_json_geom h,
    fun _ _ _ _ _ hext h => defaults_from_folder_text_geom hext h,
    fun _ _ _ _ => defaults_from_pascal_voc_xml_clamp,
    fun _ _ _ _ => detection_defaults_from_csv_inv⟩
  intro fs ds files m hm
  dsimp only [detection_defaults_for_files] at hm
  split_ifs at hm
  · exact dictAllBoxes_mono (defaults_from_folder_clamp hm) (fun b hb => Or.inl hb)
  · exact dictAllBoxes_mono (defaults_from_json_geom hm)
      (fun b hb => Or.inl ⟨geomInv_clampInv hb.1, hb.2⟩)
  · cases hm
    exact dictAllBoxes_mono detection_defaults_from_csv_inv
      (fun b hb => hb.elim (fun h => Or.inr h) (fun h => Or.inl ⟨geomInv_clampInv h.2, h.1⟩))
  · cases hm
    exact dictAllBoxes_empty _

/-- C1 witness: the amended invariant evaluated on a concrete folder-text run
and a concrete CSV run. -/
theorem C1_clamp_invariant_amended_witness :
    DictAllBoxes [("/data/img1.jpg",
        [{ label := "cat", x := mkRat 3 10, y := mkRat 2 5, width := mkRat 2 5,
           height := mkRat 1 5, negative := false }])]
      (fun b => GeomInv b ∧ b.negative = false) :=
  C1_clamp_invariant_amended.2.2.1 Fix.folderFs Fix.folderDs ["/data/img1.jpg"] Fix.folderCfg
    _ (by decide) (by decide)

/-! ## Claim C10 -/

/-- C10: there is a CSV input on which the parser returns a map binding a key
to an empty list — a row that matches a candidate file but carries an empty
geometry column inserts the key via `setdefault` and then skips the row,
leaving the empty list behind. -/
theorem C10_empty_list_key :
    detection_defaults_from_csv (Fix.csvFs Fix.rowsEmptyGeom) Fix.csvDs Fix.csvFiles Fix.csvCfg
      = [("/data/set/img001.jpg", [])] := by decide

/-! ## Claim C3 -/

/-- Every key of the map comes from a candidate file of `files`. -/
def KeysFrom (m : Dict (List Box)) (files : List String) : Prop :=
  ∀ k ∈ dkeys m, ∃ f ∈ files, k = normKey f

theorem keysFrom_empty (files : List String) : KeysFrom dempty files := by
  intro k hk
  simp [dempty, dkeys] at hk

theorem keysFrom_dset {m : Dict (List Box)} {files : List String} {k : String}
    {bs : List Box} (hm : KeysFrom m files) (hk : ∃ f ∈ files, k = normKey f) :
    KeysFrom (dset m k bs) files :=
  fun k2 hk2 => (mem_dkeys_dset hk2).elim (hm k2) (fun he => he ▸ hk)

theorem keysFrom_dsetdefault {m : Dict (List Box)} {files : List String} {k : String}
    (hm : KeysFrom m files) (hk : ∃ f ∈ files, k = normKey f) :
    KeysFrom (dsetdefault m k []) files := by
  dsimp only [dsetdefault]
  split
  · exact hm
  · exact keysFrom_dset hm hk

theorem dget_mem_dkeys {α : Type} {m : Dict α} {k : String} {v : α}
    (h : dget m k = some v) : k ∈ dkeys m :=
  List.mem_map.mpr ⟨(k, v), dget_mem h, rfl⟩

/-- Keys of `dofList ps` come from the first components of `ps`. -/
theorem dkeys_dofList_subset {α : Type} {ps : List (String × α)} {k : String}
    (h : k ∈ dkeys (dofList ps)) : k ∈ ps.map (·.1) := by
  dsimp only [dofList] at h
  refine foldl_inv (fun acc p => dset acc p.1 p.2)
    (fun m => ∀ k2 ∈ dkeys m, k2 ∈ ps.map (·.1)) ps dempty ?_ ?_ k h
  · intro m p hp hm k2 hk2
    rcases mem_dkeys_dset hk2 with h2 | h2
    · exact hm k2 h2
    · exact h2 ▸ List.mem_map_of_mem _ hp
  · intro k2 hk2
    simp [dempty, dkeys] at hk2

theorem csvMatchedStep_keys {fs : FS} {ds : Dataset}
    {rep negValue labelCol annCol : String} {d d2 : Dict (List Box)}
    {normPath origFile : String} {row : Row} {files : List String}
    (hstep : csvMatchedStep fs ds rep negValue labelCol annCol d normPath origFile row = .ok d2)
    (hk : ∃ f ∈ files, normPath = normKey f) (hd : KeysFrom d files) :
    KeysFrom d2 files := by
  have hd1 := keysFrom_dsetdefault hd hk
  dsimp only [csvMatchedStep] at hstep
  split_ifs at hstep <;>
    first
      | (cases hstep; exact hd1)
      | (cases hstep; exact keysFrom_dset hd1 hk)
      | skip
  split at hstep <;>
    first
      | exact Except.noConfusion hstep
      | (cases hstep; exact hd1)
      | (cases hstep; exact keysFrom_dset hd1 hk)

theorem csvRowStep_keys {fs : FS} {ds : Dataset} {dataRoot rep negValue labelCol imageCol annCol : String}
    {files : List String} {d d2 : Dict (List Box)} {row : Row}
    (hstep : csvRowStep fs ds (dofList (files.map (fun f => (normKey f, f))))
      dataRoot rep negValue labelCol imageCol annCol d row = .ok d2)
    (hd : KeysFrom d files) : KeysFrom d2 files := by
  dsimp only [csvRowStep] at hstep
  split_ifs at hstep
  · cases hstep
    exact hd
  · split at hstep
    · cases hstep
      exact hd
    · refine csvMatchedStep_keys hstep ?_ hd
      have hmem := dget_mem_dkeys (by assumption :
        dget (dofList (files.map (fun f => (normKey f, f)))) _ = some _)
      have h2 := dkeys_dofList_subset hmem
      rw [List.map_map] at h2
      rcases List.mem_map.mp h2 with ⟨f, hf, he⟩
      exact ⟨f, hf, he.symm⟩

/-- C3: for every dataset configuration and candidate file list, every key of
the returned map is the normalized form (`normpath(f).lower()`) of a path in
the candidate file list; annotation records referencing files outside the
candidate set never introduce a key of their own. -/
theorem C3_keys_from_candidates :
    ∀ (fs : FS) (ds : Dataset) (files : List String) (m : Dict (List Box)),
      detection_defaults_for_files fs ds files = .ok m →
      ∀ k ∈ dkeys m, ∃ f ∈ files, k = normKey f := by
  have hxml : ∀ (fs : FS) (ds : Dataset) (files : List String) (cfg : SourceCfg),
      KeysFrom (defaults_from_pascal_voc_xml fs ds files cfg) files := by
    intro fs ds files cfg
    dsimp only [defaults_from_pascal_voc_xml]
    split
    · exact keysFrom_empty _
    · refine foldl_inv _ (fun d => KeysFrom d files) files dempty ?_ (keysFrom_empty _)
      intro d a ha hd
      dsimp only
      rcases fs.xmlFile (annotation_file_for a (expand (some ds.data_root))
          (resolve_annotation_path ds cfg.path) (pyOrStr cfg.file_extension ".xml")) with _ | doc
      · exact hd
      · dsimp only
        split_ifs <;>
          first
            | exact hd
            | exact keysFrom_dset hd ⟨a, ha, rfl⟩
  intro fs ds files m hm
  dsimp only [detection_defaults_for_files] at hm
  split_ifs at hm
  · -- folder
    by_cases hext : pyLower (folderExtension ((ds.annotation_source.getD {}).config.getD {})) = ".xml"
    · dsimp only [defaults_from_folder] at hm
      split at hm
      · cases hm
        exact keysFrom_empty _
      all_goals try split at hm
      all_goals first
        | (cases hm; exact keysFrom_empty _)
        | (cases hm; exact hxml _ _ _ _)
        | exact absurd hext (by assumption)
    · dsimp only [defaults_from_folder] at hm
      split at hm
      · cases hm
        exact keysFrom_empty _
      all_goals try split at hm
      all_goals first
        | (cases hm; exact keysFrom_empty _)
        | (cases hm; exact hxml _ _ _ _)
        | (refine exceptFold_inv _ (fun d => KeysFrom d files) files dempty m ?_ hm
              (keysFrom_empty _)
           intro d a d2 ha hstep hd
           dsimp only [folderFileStep] at hstep
           split at hstep
           · cases hstep
             exact hd
           · split at hstep
             · exact Except.noConfusion hstep
             · cases hstep
               split
               · exact hd
               · exact keysFrom_dset hd ⟨a, ha, rfl⟩)
  · -- json
    dsimp only [defaults_from_json] at hm
    split at hm
    · cases hm
      exact keysFrom_empty _
    · split at hm
      · cases hm
        exact keysFrom_empty _
      · split at hm
        · exact Except.noConfusion hm
        · split at hm
          · exact Except.noConfusion hm
          · split_ifs at hm <;> cases hm
            · exact keysFrom_empty _
            · dsimp only [jsonMatchFiles]
              refine foldl_inv _ (fun d => KeysFrom d files) files dempty ?_ (keysFrom_empty _)
              intro d a ha hd
              dsimp only
              split_ifs <;>
                first
                  | exact hd
                  | exact keysFrom_dset hd ⟨a, ha, rfl⟩
        · cases hm
          exact keysFrom_empty _
  · -- csv
    cases hm
    dsimp only [detection_defaults_from_csv]
    split
    · exact keysFrom_empty _
    · split
      · exact keysFrom_empty _
      · split
        · exact keysFrom_empty _
        · split
          · exact exceptFold_inv _ (fun d => KeysFrom d files) _ dempty _
              (fun d a d2 _ hstep hd => csvRowStep_keys hstep hd) (by assumption)
              (keysFrom_empty _)
          · exact keysFrom_empty _
  · cases hm
    exact keysFrom_empty _

/-- C3 witness: the key invariant evaluated on a concrete CSV run. -/
theorem C3_keys_from_candidates_witness :
    ∃ f ∈ Fix.csvFiles, "/data/set/img001.jpg" = normKey f :=
  C3_keys_from_candidates (Fix.csvFs Fix.rowsNeg) Fix.csvDs Fix.csvFiles
    [("/data/set/img001.jpg",
      [negative_placeholder "NONE",
       { label := "cat", x := mkRat 3 10, y := mkRat 2 5, width := mkRat 2 5,
         height := mkRat 1 5 }])]
    (by decide) "/data/set/img001.jpg" (by decide)

/-! ## Claim C4 -/

/-- C4 (counterexample): the geometry normalizer can raise.  With the generic
(unrecognized) representation, a structured JSON record whose first field is
`null` reaches an unguarded `float(None)`, which raises `TypeError` — the
call does not return `None`. -/
theorem C4_parse_bbox_counterexample :
    parse_detection_bbox "[null,1,2,3]" none (some "generic") = .error .typeError
    ∧ ∀ r : Option (ℚ × ℚ × ℚ × ℚ),
        parse_detection_bbox "[null,1,2,3]" none (some "generic") ≠ .ok r := by
  constructor
  · decide
  · intro r h
    have he : parse_detection_bbox "[null,1,2,3]" none (some "generic") = .error .typeError := by
      decide
    rw [he] at h
    exact Except.noConfusion h

/-- C4 (amended): for the named representations `yolo`, `pascal_voc` and
`coco_bbox`, `parse_detection_bbox` always returns normally with a 4-tuple or
`None` (non-numeric tokens are simply never extracted by the pattern scan);
only the generic structured-JSON path can raise. -/
theorem C4_parse_bbox_amended :
    ∀ (value : String) (dims : Dims) (representation : Option String),
      (pyLower (pyOrStr representation "yolo") = "yolo" ∨
        pyLower (pyOrStr representation "yolo") = "pascal_voc" ∨
        pyLower (pyOrStr representation "yolo") = "coco_bbox") →
      ∃ r : Option (ℚ × ℚ × ℚ × ℚ),
        parse_detection_bbox value dims representation = .ok r :=
  fun _ _ _ h => parse_detection_bbox_no_throw h

/-- C4 witness: the amended no-throw guarantee evaluated at a concrete call. -/
theorem C4_parse_bbox_amended_witness :
    ∃ r : Option (ℚ × ℚ × ℚ × ℚ),
      parse_detection_bbox "not a number" none (some "yolo") = .ok r :=
  C4_parse_bbox_amended "not a number" none (some "yolo") (by decide)

/-! ## Claim C5 -/

/-- The label-resolution rule as specified, amended to the stripped token:
the effective-map value when the stripped token is bound to a non-empty
value; otherwise the class name at index `i` when the stripped token parses
as an integer `i` with `0 ≤ i < len(class_names)`; otherwise the stripped
token itself. -/
def resolveLabelSpec (token : String) (effMap : Dict String)
    (classNames : List String) : String :=
  let key := pyStrip token
  let fallback :=
    match pyIntOfString key with
    | some i =>
      if 0 ≤ i && i < (classNames.length : Int) then classNames.getD i.toNat "" else key
    | none => key
  match dget effMap key with
  | some v => if v ≠ "" then v else fallback
  | none => fallback

theorem dget_eq_none_of_not_mem {α : Type} {m : Dict α} {k : String}
    (h : k ∉ dkeys m) : dget m k = none := by
  cases hd : dget m k with
  | none => rfl
  | some v => exact absurd (dget_mem_dkeys hd) h

theorem dkeys_dset_nodup {α : Type} {m : Dict α} (h : (dkeys m).Nodup)
    (k : String) (v : α) : (dkeys (dset m k v)).Nodup := by
  induction m with
  | nil => simp [dset, dkeys]
  | cons p rest ih =>
    rcases p with ⟨k0, v0⟩
    simp only [dkeys, List.map_cons, List.nodup_cons] at h
    by_cases hk : k0 = k
    · subst hk
      have hds : dset ((k0, v0) :: rest) k0 v = (k0, v) :: rest := by
        simp [dset]
      rw [hds]
      simpa [dkeys] using h
    · simp only [dset, if_neg hk, dkeys, List.map_cons, List.nodup_cons]
      refine ⟨?_, ih h.2⟩
      intro hmem
      rcases mem_dkeys_dset hmem with h2 | h2
      · exact h.1 h2
      · exact hk h2

theorem dkeys_dofList_nodup {α : Type} (ps : List (String × α)) :
    (dkeys (dofList ps)).Nodup := by
  dsimp only [dofList]
  refine foldl_inv (fun acc p => dset acc p.1 p.2) (fun m => (dkeys m).Nodup) ps dempty
    ?_ ?_
  · intro m p _ hm
    exact dkeys_dset_nodup hm _ _
  · simp [dempty, dkeys]

/-- `d.update(other)` lookup, for `other` with unique keys: the binding of
`other` wins, the old binding is the fallback. -/
theorem dget_dupdate {α : Type} :
    ∀ (other m : Dict α) (k : String), (dkeys other).Nodup →
      dget (dupdate m other) k = (dget other k).or (dget m k) := by
  intro other
  induction other with
  | nil => intro m k _; rfl
  | cons p rest ih =>
    intro m k hnd
    rcases p with ⟨k0, v0⟩
    simp only [dkeys, List.map_cons, List.nodup_cons] at hnd
    have hupd : dupdate m ((k0, v0) :: rest) = dupdate (dset m k0 v0) rest := rfl
    rw [hupd, ih _ k hnd.2]
    by_cases hk : k0 = k
    · subst hk
      rw [dget_eq_none_of_not_mem hnd.1, dget_dset_self]
      simp [dget, Option.or]
    · simp only [dget, if_neg hk]
      cases hr : dget rest k with
      | some v => simp [Option.or]
      | none =>
        rw [dget_dset_ne _ _ _ _ (fun he => hk he.symm)]

/-- The class-name fallback of the source equals the spec's: the source's
extra non-emptiness test on `class_names` is subsumed by the range check. -/
theorem labelIndexFallback_eq (key : String) (classNames : List String) :
    label_for_index.labelIndexFallback key classNames =
      match pyIntOfString key with
      | some i =>
        if 0 ≤ i && i < (classNames.length : Int) then classNames.getD i.toNat "" else key
      | none => key := by
  dsimp only [label_for_index.labelIndexFallback]
  cases pyIntOfString key with
  | none => rfl
  | some i =>
    by_cases h0 : 0 ≤ i
    · by_cases h1 : i < (classNames.length : Int)
      · have hne : classNames.isEmpty = false := by
          cases classNames
          · simp only [List.length_nil, Nat.cast_zero] at h1
            omega
          · rfl
        simp [hne, h0, h1]
      · simp [h0, h1]
    · simp [h0]

theorem label_for_index_eq_spec (token : String) (effMap : Dict String)
    (classNames : List String) :
    label_for_index token effMap classNames = resolveLabelSpec token effMap classNames := by
  dsimp only [label_for_index, resolveLabelSpec]
  rcases hd : dget effMap (pyStrip token) with _ | v <;> simp only [hd]
  · exact labelIndexFallback_eq _ _
  · split_ifs
    · rfl
    · exact labelIndexFallback_eq _ _

/-- C5 (counterexample): label resolution is keyed by the *stripped* token,
not the raw token.  With raw token `" x"`, map `{"x": "cat"}` and no class
names, the raw token is not a key of the map and parses as no integer, so by
the claim the result should be the raw token `" x"`; the function returns
`"cat"`. -/
theorem C5_label_resolution_counterexample :
    label_for_index " x" (dofList [("x", "cat")]) [] = "cat"
    ∧ dget (dofList [("x", "cat")]) " x" = none
    ∧ pyIntOfString " x" = none
    ∧ ("cat" : String) ≠ " x" := by decide

/-- C5 (amended): label resolution returns the effective-map value of the
*stripped* token when bound and non-empty, then the class name at the
token's integer value when in range, then the stripped token itself; the
effective map is the external-file entries updated by the inline entries,
and on that updated map the inline binding wins on every key collision. -/
theorem C5_label_resolution_amended :
    (∀ (token : String) (effMap : Dict String) (classNames : List String),
        label_for_index token effMap classNames = resolveLabelSpec token effMap classNames)
    ∧ (∀ (fs : FS) (cfg : SourceCfg),
        effective_label_map fs cfg =
          dupdate
            (match cfg.label_map_file with
             | some f => if f ≠ "" then load_label_map_from_file fs f else dempty
             | none => dempty)
            (dofList (cfg.label_map.getD [])))
    ∧ (∀ (fileMap : Dict String) (ps : List (String × String)) (k : String),
        dget (dupdate fileMap (dofList ps)) k =
          (dget (dofList ps) k).or (dget fileMap k)) :=
  ⟨label_for_index_eq_spec,
   fun _ _ => rfl,
   fun fileMap ps k => dget_dupdate (dofList ps) fileMap k (dkeys_dofList_nodup ps)⟩

/-! ## Claim C8 -/

/-- C8 (counterexample): the folder/YOLO-text line filter skips only lines
with fewer than **2** tokens, not fewer than 5.  A 2-token line whose second
token packs four comma-separated numbers produces a box (the number scan
finds all four numbers inside the single token). -/
theorem C8_folder_line_tokens_counterexample :
    detection_defaults_for_files Fix.folderCommaFs Fix.folderDs ["/data/img1.jpg"] =
      .ok [("/data/img1.jpg",
        [{ label := "cat", x := mkRat 3 10, y := mkRat 2 5, width := mkRat 2 5,
           height := mkRat 1 5 }])]
    ∧ (pySplitWs (pyStrip "0 0.5,0.5,0.4,0.2")).length < 5 := by
  exact ⟨by decide, by decide⟩

/-- C8 (amended): a non-blank sidecar line is skipped when it has fewer than
**2** whitespace-separated tokens; every produced box comes from a line with
at least 2 tokens, its label resolves token 0 and its geometry comes from
tokens 1 onward (re-joined and fed to the geometry normalizer with the
configured representation). -/
theorem C8_folder_line_tokens_amended :
    (∀ (labelMap : Dict String) (classNames : List String) (dims : Dims)
        (rep raw : String),
        (pySplitWs (pyStrip raw)).length < 2 →
        folderLineBox labelMap classNames dims rep raw = .ok none)
    ∧ (∀ (labelMap : Dict String) (classNames : List String) (dims : Dims)
        (rep raw : String) (b : Box),
        folderLineBox labelMap classNames dims rep raw = .ok (some b) →
        2 ≤ (pySplitWs (pyStrip raw)).length ∧
        b.label = label_for_index ((pySplitWs (pyStrip raw)).getD 0 "") labelMap classNames ∧
        parse_detection_bbox (joinWith " " ((pySplitWs (pyStrip raw)).drop 1)) dims (some rep) =
          .ok (some (b.x, b.y, b.width, b.height))) := by
  constructor
  · intro labelMap classNames dims rep raw h
    dsimp only [folderLineBox]
    rw [if_pos h]
  · intro labelMap classNames dims rep raw b hb
    dsimp only [folderLineBox] at hb
    split_ifs at hb with hlt
    · exact Option.noConfusion (Except.ok.inj hb)
    · refine ⟨by omega, ?_⟩
      split at hb
      · exact Except.noConfusion hb
      · exact Option.noConfusion (Except.ok.inj hb)
      · rename_i x y w h hpd
        cases Option.some.inj (Except.ok.inj hb)
        exact ⟨rfl, hpd⟩

/-- The box produced from the fixture YOLO line `0 0.5 0.5 0.4 0.2`. -/
def yoloFixBox : Box :=
  { label := "cat", x := mkRat 3 10, y := mkRat 2 5, width := mkRat 2 5,
    height := mkRat 1 5 }

/-- C8 witness: the amended characterization evaluated on a regular 5-token
YOLO line. -/
theorem C8_folder_line_tokens_amended_witness :
    2 ≤ (pySplitWs (pyStrip "0 0.5 0.5 0.4 0.2")).length ∧
    yoloFixBox.label =
      label_for_index ((pySplitWs (pyStrip "0 0.5 0.5 0.4 0.2")).getD 0 "") dempty ["cat"] ∧
    parse_detection_bbox
        (joinWith " " ((pySplitWs (pyStrip "0 0.5 0.5 0.4 0.2")).drop 1)) none (some "yolo") =
      .ok (some (yoloFixBox.x, yoloFixBox.y, yoloFixBox.width, yoloFixBox.height)) :=
  C8_folder_line_tokens_amended.2 dempty ["cat"] none "yolo" "0 0.5 0.5 0.4 0.2"
    yoloFixBox (by decide)

/-! ## Claim C6 -/

theorem dget_dsetdefault_self {α : Type} (m : Dict α) (k : String) (v0 : α) :
    dget (dsetdefault m k v0) k = some (dgetD (dsetdefault m k v0) k v0) := by
  dsimp only [dsetdefault, dcontains]
  split
  · rename_i h
    cases hd : dget m k with
    | none => rw [hd] at h; exact absurd h (by simp)
    | some bs => simp [dgetD, hd]
  · simp [dgetD, dget_dset_self]

/-- A fold invariant established at one element of the list and preserved by
every later step. -/
theorem exceptFold_estab {α β : Type} (f : β → α → Except PyErr β) (P : β → Prop) (a : α) :
    ∀ (l : List α) (b b2 : β), a ∈ l →
      (∀ b b2, f b a = .ok b2 → P b2) →
      (∀ b x b2, x ∈ l → f b x = .ok b2 → P b → P b2) →
      l.foldlM f b = .ok b2 → P b2 := by
  intro l
  induction l with
  | nil =>
    intro b b2 ha
    exact absurd ha (List.not_mem_nil a)
  | cons x l ih =>
    intro b b2 ha hest hpres hfold
    simp only [List.foldlM] at hfold
    cases hfx : f b x with
    | error e => rw [hfx] at hfold; simp [Bind.bind, Except.bind] at hfold
    | ok b1 =>
      rw [hfx] at hfold
      simp only [Bind.bind, Except.bind] at hfold
      rcases List.mem_cons.mp ha with hax | hal
      · subst hax
        exact exceptFold_inv f P l b1 b2
          (fun b3 a2 b4 ha2 => hpres b3 a2 b4 (List.mem_cons_of_mem _ ha2)) hfold
          (hest b b1 hfx)
      · exact ih b1 b2 hal hest
          (fun b3 x2 b4 hx2 => hpres b3 x2 b4 (List.mem_cons_of_mem _ hx2)) hfold

/-- The matched-row step keeps every file's negative-box count at most 1. -/
theorem csvMatchedStep_negcount {fs : FS} {ds : Dataset}
    {rep negValue labelCol annCol : String} {d d2 : Dict (List Box)}
    {normPath origFile : String} {row : Row}
    (hstep : csvMatchedStep fs ds rep negValue labelCol annCol d normPath origFile row = .ok d2)
    (hd : ∀ k bs, dget d k = some bs → bs.countP (·.negative) ≤ 1) :
    ∀ k bs, dget d2 k = some bs → bs.countP (·.negative) ≤ 1 := by
  have hd1 : ∀ k bs, dget (dsetdefault d normPath []) k = some bs →
      bs.countP (·.negative) ≤ 1 := by
    intro k bs hk
    dsimp only [dsetdefault] at hk
    split at hk
    · exact hd k bs hk
    · by_cases hkn : k = normPath
      · subst hkn
        rw [dget_dset_self] at hk
        cases Option.some.inj hk
        simp
      · rw [dget_dset_ne _ _ _ _ hkn] at hk
        exact hd k bs hk
  have hboxes : (dgetD (dsetdefault d normPath []) normPath []).countP (·.negative) ≤ 1 := by
    cases hg : dget (dsetdefault d normPath []) normPath with
    | none => simp [dgetD, hg]
    | some bs => simpa [dgetD, hg] using hd1 normPath bs hg
  dsimp only [csvMatchedStep] at hstep
  split_ifs at hstep with hneg hhas hgeom
  · cases hstep
    exact hd1
  · cases hstep
    intro k bs hk
    by_cases hkn : k = normPath
    · subst hkn
      rw [dget_dset_self] at hk
      cases Option.some.inj hk
      rw [List.countP_append]
      have h0 : (dgetD (dsetdefault d k []) k []).countP (·.negative) = 0 := by
        simp only [Bool.not_eq_true] at hhas
        dsimp only [has_negative_default] at hhas
        refine List.countP_eq_zero.mpr ?_
        intro b hb
        simpa using List.any_eq_false.mp hhas b hb
      rw [h0]
      simp [List.countP_cons, negative_placeholder]
    · rw [dget_dset_ne _ _ _ _ hkn] at hk
      exact hd1 k bs hk
  · cases hstep
    exact hd1
  · split at hstep
    · exact Except.noConfusion hstep
    · cases hstep
      exact hd1
    · cases hstep
      intro k bs hk
      by_cases hkn : k = normPath
      · subst hkn
        rw [dget_dset_self] at hk
        cases Option.some.inj hk
        rw [List.countP_append]
        simpa [List.countP_cons] using hboxes
      · rw [dget_dset_ne _ _ _ _ hkn] at hk
        exact hd1 k bs hk

theorem csvRowStep_negcount {fs : FS} {ds : Dataset} {filesSet : Dict String}
    {dataRoot rep negValue labelCol imageCol annCol : String}
    {d d2 : Dict (List Box)} {row : Row}
    (hstep : csvRowStep fs ds filesSet dataRoot rep negValue labelCol imageCol annCol d row
      = .ok d2)
    (hd : ∀ k bs, dget d k = some bs → bs.countP (·.negative) ≤ 1) :
    ∀ k bs, dget d2 k = some bs → bs.countP (·.negative) ≤ 1 := by
  dsimp only [csvRowStep] at hstep
  split_ifs at hstep
  · cases hstep; exact hd
  · split at hstep
    · cases hstep; exact hd
    · exact csvMatchedStep_negcount hstep hd

/-- The CSV parser binds every file to a list with at most one negative
placeholder. -/
theorem detection_defaults_from_csv_negcount {fs : FS} {ds : Dataset}
    {files : List String} {cfg : SourceCfg} :
    ∀ k bs, dget (detection_defaults_from_csv fs ds files cfg) k = some bs →
      bs.countP (·.negative) ≤ 1 := by
  intro k bs h
  dsimp only [detection_defaults_from_csv] at h
  split at h
  · exact Option.noConfusion h
  · split at h
    · exact Option.noConfusion h
    · split at h
      · exact Option.noConfusion h
      · split at h
        · rename_i d hfold
          refine exceptFold_inv _
            (fun d => ∀ k bs, dget d k = some bs → bs.countP (·.negative) ≤ 1)
            _ dempty d ?_ hfold ?_ k bs h
          · intro b a b2 _ hstep hb
            exact csvRowStep_negcount hstep hb
          · intro k2 bs2 h2
            exact Option.noConfusion h2
        · exact Option.noConfusion h

/-- Once a file's list holds a negative box, it keeps one through any later
row. -/
theorem csvMatchedStep_neg_persist {fs : FS} {ds : Dataset}
    {rep negValue labelCol annCol : String} {d d2 : Dict (List Box)}
    {normPath origFile k : String} {row : Row}
    (hstep : csvMatchedStep fs ds rep negValue labelCol annCol d normPath origFile row = .ok d2)
    (hq : ∃ bs, dget d k = some bs ∧ has_negative_default bs = true) :
    ∃ bs, dget d2 k = some bs ∧ has_negative_default bs = true := by
  rcases hq with ⟨bs, hbs, hneg⟩
  have hq1 : ∃ bs2, dget (dsetdefault d normPath []) k = some bs2
      ∧ has_negative_default bs2 = true := by
    dsimp only [dsetdefault]
    split
    · exact ⟨bs, hbs, hneg⟩
    · rename_i hc
      by_cases hkn : k = normPath
      · subst hkn
        exact absurd (by simp [dcontains, hbs]) hc
      · rw [dget_dset_ne _ _ _ _ hkn]
        exact ⟨bs, hbs, hneg⟩
  rcases hq1 with ⟨bs1, hbs1, hneg1⟩
  dsimp only [has_negative_default] at hneg1
  dsimp only [csvMatchedStep] at hstep
  split_ifs at hstep
  · cases hstep
    exact ⟨bs1, hbs1, by dsimp only [has_negative_default]; exact hneg1⟩
  · cases hstep
    by_cases hkn : k = normPath
    · subst hkn
      refine ⟨_, dget_dset_self _ _ _, ?_⟩
      have hb : dgetD (dsetdefault d k []) k [] = bs1 := by simp [dgetD, hbs1]
      rw [hb]
      dsimp only [has_negative_default]
      rw [List.any_append]
      simp [hneg1]
    · refine ⟨bs1, ?_, by dsimp only [has_negative_default]; exact hneg1⟩
      rw [dget_dset_ne _ _ _ _ hkn]
      exact hbs1
  · cases hstep
    exact ⟨bs1, hbs1, by dsimp only [has_negative_default]; exact hneg1⟩
  · split at hstep
    · exact Except.noConfusion hstep
    · cases hstep
      exact ⟨bs1, hbs1, by dsimp only [has_negative_default]; exact hneg1⟩
    · cases hstep
      by_cases hkn : k = normPath
      · subst hkn
        refine ⟨_, dget_dset_self _ _ _, ?_⟩
        have hb : dgetD (dsetdefault d k []) k [] = bs1 := by simp [dgetD, hbs1]
        rw [hb]
        dsimp only [has_negative_default]
        rw [List.any_append]
        simp [hneg1]
      · refine ⟨bs1, ?_, by dsimp only [has_negative_default]; exact hneg1⟩
        rw [dget_dset_ne _ _ _ _ hkn]
        exact hbs1

theorem csvRowStep_neg_persist {fs : FS} {ds : Dataset} {filesSet : Dict String}
    {dataRoot rep negValue labelCol imageCol annCol k : String}
    {d d2 : Dict (List Box)} {row : Row}
    (hstep : csvRowStep fs ds filesSet dataRoot rep negValue labelCol imageCol annCol d row
      = .ok d2)
    (hq : ∃ bs, dget d k = some bs ∧ has_negative_default bs = true) :
    ∃ bs, dget d2 k = some bs ∧ has_negative_default bs = true := by
  dsimp only [csvRowStep] at hstep
  split_ifs at hstep
  · cases hstep; exact hq
  · split at hstep
    · cases hstep; exact hq
    · exact csvMatchedStep_neg_persist hstep hq

/-- A matched negative row leaves its file bound to a list holding a
negative box. -/
theorem csvMatchedStep_neg_estab {fs : FS} {ds : Dataset}
    {rep negValue labelCol annCol : String} {d d2 : Dict (List Box)}
    {normPath origFile : String} {row : Row}
    (hneg : csvRowIsNegative ds negValue labelCol row = true)
    (hstep : csvMatchedStep fs ds rep negValue labelCol annCol d normPath origFile row = .ok d2) :
    ∃ bs, dget d2 normPath = some bs ∧ has_negative_default bs = true := by
  dsimp only [csvMatchedStep] at hstep
  rw [if_pos hneg] at hstep
  split_ifs at hstep with hhas
  · cases hstep
    exact ⟨_, dget_dsetdefault_self d normPath [], hhas⟩
  · cases hstep
    refine ⟨_, dget_dset_self _ _ _, ?_⟩
    dsimp only [has_negative_default]
    rw [List.any_append]
    simp [negative_placeholder]

theorem csvRowStep_neg_estab {fs : FS} {ds : Dataset} {filesSet : Dict String}
    {dataRoot rep negValue labelCol imageCol annCol k : String}
    {d d2 : Dict (List Box)} {row : Row}
    (hraw : csvRowRawPath row imageCol ≠ "")
    (hnp : pyLower (posixNormPath (normalize_image_path (csvRowRawPath row imageCol) dataRoot))
      = k)
    (hin : (dget filesSet k).isSome = true)
    (hneg : csvRowIsNegative ds negValue labelCol row = true)
    (hstep : csvRowStep fs ds filesSet dataRoot rep negValue labelCol imageCol annCol d row
      = .ok d2) :
    ∃ bs, dget d2 k = some bs ∧ has_negative_default bs = true := by
  dsimp only [csvRowStep] at hstep
  rw [if_neg hraw, hnp] at hstep
  cases hg : dget filesSet k with
  | none => rw [hg] at hin; exact absurd hin (by simp)
  | some f =>
    rw [hg] at hstep
    exact csvMatchedStep_neg_estab hneg hstep

/-- C6: every file's resulting list carries at most one negative placeholder,
and a file matched by at least one row whose label equals the configured
negative value (case-insensitively) carries exactly one — appending the
placeholder is idempotent per file. -/
theorem C6_negative_idempotence :
    (∀ (fs : FS) (ds : Dataset) (files : List String) (cfg : SourceCfg)
        (k : String) (bs : List Box),
        dget (detection_defaults_from_csv fs ds files cfg) k = some bs →
        bs.countP (·.negative) ≤ 1)
    ∧ (∀ (fs : FS) (ds : Dataset) (files : List String) (cfg : SourceCfg)
        (rows : List Row) (k : String) (bs : List Box),
        fs.csvRows (resolve_csv_path fs cfg.path (expand (some ds.data_root))) = some rows →
        (∃ row ∈ rows,
          csvRowRawPath row (cfg.image_column.getD "") ≠ "" ∧
          pyLower (posixNormPath (normalize_image_path
            (csvRowRawPath row (cfg.image_column.getD "")) (expand (some ds.data_root)))) = k ∧
          (dget (dofList (files.map (fun f => (normKey f, f)))) k).isSome = true ∧
          csvRowIsNegative ds (pyStrip (pyOrStr cfg.negative_value ""))
            (pyStrip (pyOrStr cfg.label_column "")) row = true) →
        dget (detection_defaults_from_csv fs ds files cfg) k = some bs →
        bs.countP (·.negative) = 1) := by
  constructor
  · intro fs ds files cfg k bs h
    exact detection_defaults_from_csv_negcount k bs h
  · intro fs ds files cfg rows k bs hrows hex hres
    have hle := detection_defaults_from_csv_negcount k bs hres
    dsimp only [detection_defaults_from_csv] at hres
    split at hres
    · exact Option.noConfusion hres
    · split at hres
      · rename_i heq
        rw [hrows] at heq
        exact Option.noConfusion heq
      · rename_i rows2 heq
        rw [hrows] at heq
        cases Option.some.inj heq
        split at hres
        · exact Option.noConfusion hres
        · split at hres
          · rename_i d hfold
            obtain ⟨row, hrowmem, hraw2, hnp2, hin2, hneg2⟩ := hex
            have hq : ∃ bs2, dget d k = some bs2 ∧ has_negative_default bs2 = true :=
              exceptFold_estab _
                (fun d => ∃ bs2, dget d k = some bs2 ∧ has_negative_default bs2 = true)
                row rows dempty d hrowmem
                (fun b b2 hs => csvRowStep_neg_estab hraw2 hnp2 hin2 hneg2 hs)
                (fun b x b2 _ hs hq => csvRowStep_neg_persist hs hq)
                hfold
            rcases hq with ⟨bs2, hbs2, hnegbs2⟩
            have hbs_eq : bs2 = bs := Option.some.inj (hbs2.symm.trans hres)
            rw [hbs_eq] at hnegbs2
            dsimp only [has_negative_default] at hnegbs2
            rcases List.any_eq_true.mp hnegbs2 with ⟨b, hb, hbneg⟩
            have hpos : 0 < bs.countP (·.negative) :=
              List.countP_pos_iff.mpr ⟨b, hb, hbneg⟩
            omega
          · exact Option.noConfusion hres

/-- C6 witness: the idempotence evaluated on a CSV with two negative rows and
one geometric row for the same file. -/
theorem C6_negative_idempotence_witness :
    List.countP (·.negative)
      [negative_placeholder "NONE",
       { label := "cat", x := mkRat 3 10, y := mkRat 2 5, width := mkRat 2 5,
         height := mkRat 1 5 }] = 1 :=
  C6_negative_idempotence.2 (Fix.csvFs Fix.rowsNeg) Fix.csvDs Fix.csvFiles Fix.csvCfg
    Fix.rowsNeg "/data/set/img001.jpg"
    [negative_placeholder "NONE",
     { label := "cat", x := mkRat 3 10, y := mkRat 2 5, width := mkRat 2 5,
       height := mkRat 1 5 }]
    (by decide)
    ⟨[("img", "set/img001.jpg"), ("lab", "NONE"), ("ann", "0.5 0.5 0.4 0.2")],
      by decide, by decide, by decide, by decide, by decide⟩
    (by decide)

/-! ## Claim C7 -/

/-- A fold invariant established by one element's step (from any state) and
preserved by every step. -/
theorem foldl_estab {α β : Type} (f : β → α → β) (P : β → Prop) (a : α) :
    ∀ (l : List α) (b : β), a ∈ l →
      (∀ b, P (f b a)) →
      (∀ b x, x ∈ l → P b → P (f b x)) →
      P (l.foldl f b) := by
  intro l
  induction l with
  | nil =>
    intro b ha
    exact absurd ha (List.not_mem_nil a)
  | cons x l ih =>
    intro b ha hest hpres
    rcases List.mem_cons.mp ha with hax | hal
    · exact hax ▸ foldl_inv f P l (f b x)
        (fun b2 x2 hx2 => hpres b2 x2 (List.mem_cons_of_mem _ hx2)) (hax ▸ hest b)
    · exact ih (f b x) hal hest
        (fun b2 x2 hx2 => hpres b2 x2 (List.mem_cons_of_mem _ hx2))

/-- The box carried by the basename-keyed JSON fixture. -/
def jsonFixBox : Box :=
  { label := "cat", x := mkRat 1 10, y := mkRat 1 5, width := mkRat 3 10,
    height := mkRat 2 5 }

/-- The final matching loop of the JSON parser, characterized at a candidate
whose normalized form is not shared with another candidate: the full-path
lookup wins, the basename lookup is the fallback, and a candidate found in
neither lookup gets no key. -/
theorem jsonMatchFiles_char (files : List String) (lp ln : Dict (List Box))
    (path : String) (hmem : path ∈ files)
    (huniq : ∀ p2 ∈ files, pyLower (posixNormPath p2) = pyLower (posixNormPath path) →
      p2 = path) :
    dget (jsonMatchFiles files lp ln) (pyLower (posixNormPath path)) =
      (if dgetD lp (pyLower (posixNormPath path)) [] ≠ [] then
        some (dgetD lp (pyLower (posixNormPath path)) [])
      else if dgetD ln (pyBasename (pyLower (posixNormPath path))) [] ≠ [] then
        some (dgetD ln (pyBasename (pyLower (posixNormPath path))) [])
      else none) := by
  dsimp only [jsonMatchFiles]
  by_cases hb : dgetD lp (pyLower (posixNormPath path)) [] = []
  · by_cases ha : dgetD ln (pyBasename (pyLower (posixNormPath path))) [] = []
    · rw [if_neg (fun hne => hne hb), if_neg (fun hne => hne ha)]
      refine foldl_inv _ (fun d => dget d (pyLower (posixNormPath path)) = none) files dempty
        ?_ rfl
      intro d x hx hd
      dsimp only
      by_cases hxn : pyLower (posixNormPath x) = pyLower (posixNormPath path)
      · have hxp : x = path := huniq x hx hxn
        subst hxp
        simp only [hb, ha, List.isEmpty_nil, Bool.not_true, Bool.false_eq_true, if_false]
        exact hd
      · split_ifs
        · rw [dget_dset_ne _ _ _ _ (fun he => hxn he.symm)]
          exact hd
        · rw [dget_dset_ne _ _ _ _ (fun he => hxn he.symm)]
          exact hd
        · exact hd
    · have ha2 : (dgetD ln (pyBasename (pyLower (posixNormPath path))) []).isEmpty = false := by
        cases hc : dgetD ln (pyBasename (pyLower (posixNormPath path))) [] with
        | nil => exact absurd hc ha
        | cons b0 bs0 => rfl
      rw [if_neg (fun hne => hne hb), if_pos ha]
      refine foldl_estab _
        (fun d => dget d (pyLower (posixNormPath path)) =
          some (dgetD ln (pyBasename (pyLower (posixNormPath path))) [])) path files dempty
        hmem ?_ ?_
      · intro d
        dsimp only
        simp only [hb, ha2, List.isEmpty_nil, Bool.not_true, Bool.not_false,
          Bool.false_eq_true, if_false, if_true]
        exact dget_dset_self _ _ _
      · intro d x hx hd
        dsimp only
        by_cases hxn : pyLower (posixNormPath x) = pyLower (posixNormPath path)
        · have hxp : x = path := huniq x hx hxn
          subst hxp
          simp only [hb, ha2, List.isEmpty_nil, Bool.not_true, Bool.not_false,
            Bool.false_eq_true, if_false, if_true]
          exact dget_dset_self _ _ _
        · split_ifs
          · rw [dget_dset_ne _ _ _ _ (fun he => hxn he.symm)]
            exact hd
          · rw [dget_dset_ne _ _ _ _ (fun he => hxn he.symm)]
            exact hd
          · exact hd
  · have hb2 : (dgetD lp (pyLower (posixNormPath path)) []).isEmpty = false := by
      cases hc : dgetD lp (pyLower (posixNormPath path)) [] with
      | nil => exact absurd hc hb
      | cons b0 bs0 => rfl
    rw [if_pos hb]
    refine foldl_estab _
      (fun d => dget d (pyLower (posixNormPath path)) =
        some (dgetD lp (pyLower (posixNormPath path)) [])) path files dempty hmem ?_ ?_
    · intro d
      dsimp only
      simp only [hb2, Bool.not_false, if_true]
      exact dget_dset_self _ _ _
    · intro d x hx hd
      dsimp only
      by_cases hxn : pyLower (posixNormPath x) = pyLower (posixNormPath path)
      · have hxp : x = path := huniq x hx hxn
        subst hxp
        simp only [hb2, Bool.not_false, if_true]
        exact dget_dset_self _ _ _
      · split_ifs
        · rw [dget_dset_ne _ _ _ _ (fun he => hxn he.symm)]
          exact hd
        · rw [dget_dset_ne _ _ _ _ (fun he => hxn he.symm)]
          exact hd
        · exact hd

/-- C7 (counterexample): the CSV parser has no basename fallback.  A CSV row
referencing the candidate `/data/set/img001.jpg` by its bare basename
`img001.jpg` contributes nothing: the run returns the empty map. -/
theorem C7_file_key_fallback_counterexample :
    detection_defaults_for_files (Fix.csvFs Fix.rowsBase) Fix.csvDs Fix.csvFiles = .ok []
    ∧ pyBasename (normKey "/data/set/img001.jpg") = "img001.jpg"
    ∧ csvRowRawPath (Fix.rowsBase.getD 0 []) (Fix.csvCfg.image_column.getD "")
      = "img001.jpg" := by
  exact ⟨by decide, by decide, by decide⟩

/-- C7 (amended): only the JSON parser supports the basename fallback.  Its
matching loop gives full-path lookup precedence and falls back to the
basename lookup (characterized at any candidate with an unshared normalized
form), and an end-to-end JSON run binds a basename-keyed record's boxes to
the full candidate path; the CSV parser matches by normalized full path
only. -/
theorem C7_file_key_fallback_amended :
    (∀ (files : List String) (lp ln : Dict (List Box)) (path : String),
        path ∈ files →
        (∀ p2 ∈ files, pyLower (posixNormPath p2) = pyLower (posixNormPath path) →
          p2 = path) →
        dget (jsonMatchFiles files lp ln) (pyLower (posixNormPath path)) =
          (if dgetD lp (pyLower (posixNormPath path)) [] ≠ [] then
            some (dgetD lp (pyLower (posixNormPath path)) [])
          else if dgetD ln (pyBasename (pyLower (posixNormPath path))) [] ≠ [] then
            some (dgetD ln (pyBasename (pyLower (posixNormPath path))) [])
          else none))
    ∧ detection_defaults_for_files Fix.jsonBaseFs Fix.jsonDs ["/data/set/img001.jpg"] =
        .ok [("/data/set/img001.jpg", [jsonFixBox])] :=
  ⟨jsonMatchFiles_char, by decide⟩

/-- C7 witness: the matching characterization evaluated on a concrete
basename-fallback lookup. -/
theorem C7_file_key_fallback_amended_witness :
    dget (jsonMatchFiles ["/data/set/img001.jpg"]
        [("/data/img001.jpg", [jsonFixBox])] [("img001.jpg", [jsonFixBox])])
      (pyLower (posixNormPath "/data/set/img001.jpg")) = some [jsonFixBox] :=
  (C7_file_key_fallback_amended.1 ["/data/set/img001.jpg"]
    [("/data/img001.jpg", [jsonFixBox])] [("img001.jpg", [jsonFixBox])]
    "/data/set/img001.jpg" (by decide) (by decide)).trans (by decide)

/-! ## Claim C9 -/

theorem sortedStrs_sorted (xs : List String) : (sortedStrs xs).Sorted (· ≤ ·) :=
  List.sorted_insertionSort _ _

theorem sortedStrs_nodup (xs : List String) : (sortedStrs xs).Nodup :=
  ((List.perm_insertionSort _ _).nodup_iff).mpr (List.nodup_dedup xs)

/-- The CSV label-names query always returns a sorted, duplicate-free list. -/
theorem detection_label_names_from_csv_sorted (fs : FS) (ds : Dataset) (cfg : SourceCfg) :
    (detection_label_names_from_csv fs ds cfg).Sorted (· ≤ ·) ∧
    (detection_label_names_from_csv fs ds cfg).Nodup := by
  dsimp only [detection_label_names_from_csv]
  split
  · exact ⟨List.sorted_nil, List.nodup_nil⟩
  · split
    · exact ⟨List.sorted_nil, List.nodup_nil⟩
    · split
      · exact ⟨List.sorted_nil, List.nodup_nil⟩
      · exact ⟨sortedStrs_sorted _, sortedStrs_nodup _⟩

/-- C9 (counterexample): the folder inline-label-map path of the label-names
query returns the map values in key order — neither sorted nor
deduplicated — and ignores the external label-map file that the box parsers
honour (an annotation source carrying only `label_map_file` yields no names
although the box parsers resolve label `"0"` to `"cat"` through it). -/
theorem C9_label_names_sorted_counterexample :
    detection_label_names_from_source {} Fix.inlineDs = .ok ["zebra", "ape", "ape"]
    ∧ ¬ List.Sorted (· ≤ ·) ["zebra", "ape", "ape"]
    ∧ ¬ (["zebra", "ape", "ape"].Nodup)
    ∧ detection_label_names_from_source Fix.lmFs Fix.lmDs = .ok []
    ∧ label_for_index "0" (effective_label_map Fix.lmFs Fix.lmCfg) [] = "cat" := by
  refine ⟨by decide, ?_, by decide, by decide, by decide⟩
  intro hsorted
  have h2 := (List.sorted_cons.mp hsorted).1 "ape" (by simp)
  have hlt : ("ape" : String) < "zebra" := by
    rw [String.lt_iff_toList_lt]
    decide
  exact absurd h2 (not_le.mpr hlt)

/-- C9 (amended): every successful label-names query returns a sorted,
duplicate-free list — except on the folder format's inline-label-map path,
whose result is exactly the non-empty inline map values ordered by key, a
function of the inline map alone (the external label-map file and the class
names are never consulted there). -/
theorem C9_label_names_sorted_amended :
    ∀ (fs : FS) (ds : Dataset) (ls : List String),
      detection_label_names_from_source fs ds = .ok ls →
      (ls.Sorted (· ≤ ·) ∧ ls.Nodup) ∨
      (pyLower (pyOrStr ((ds.annotation_source.getD {}).format) "") = "folder" ∧
       ∃ entries, pySortedPairsByKey
           ((ditems (dofList
             ((((ds.annotation_source.getD {}).config.getD {}).label_map).getD []))).filter
             (fun p => p.2 ≠ "")) = .ok entries ∧
         ls = entries.map (·.2)) := by
  intro fs ds ls h
  dsimp only [detection_label_names_from_source] at h
  split_ifs at h with h1 h2 h3 h4 h5 h6 h7
  · cases h
    exact Or.inl ⟨List.sorted_nil, List.nodup_nil⟩
  · cases h
    exact Or.inl ⟨sortedStrs_sorted _, sortedStrs_nodup _⟩
  · simp only [Bind.bind, Except.bind] at h
    cases hps : pySortedPairsByKey
        ((ditems (dofList
          ((((ds.annotation_source.getD {}).config.getD {}).label_map).getD []))).filter
          (fun p => p.2 ≠ "")) with
    | error e =>
      rw [hps] at h
      exact Except.noConfusion h
    | ok entries =>
      rw [hps] at h
      cases h
      right
      exact ⟨h1, entries, rfl, rfl⟩
  · cases h
    exact Or.inl ⟨List.sorted_nil, List.nodup_nil⟩
  · cases h
    exact Or.inl ⟨List.sorted_nil, List.nodup_nil⟩
  · split at h
    · cases h
      exact Or.inl ⟨List.sorted_nil, List.nodup_nil⟩
    · simp only [Bind.bind, Except.bind] at h
      split at h
      · exact Except.noConfusion h
      · split at h
        · split at h
          · exact Except.noConfusion h
          · cases h
            exact Or.inl ⟨sortedStrs_sorted _, sortedStrs_nodup _⟩
        · cases h
          exact Or.inl ⟨List.sorted_nil, List.nodup_nil⟩
  · cases h
    exact Or.inl (detection_label_names_from_csv_sorted fs ds _)
  · cases h
    exact Or.inl ⟨List.sorted_nil, List.nodup_nil⟩

/-- C9 witness: the amended characterization evaluated on a concrete JSON
label-names run. -/
theorem C9_label_names_sorted_amended_witness :
    ((["cat"] : List String).Sorted (· ≤ ·) ∧ (["cat"] : List String).Nodup) ∨
    (pyLower (pyOrStr ((Fix.jsonDs.annotation_source.getD {}).format) "") = "folder" ∧
     ∃ entries, pySortedPairsByKey
         ((ditems (dofList
           ((((Fix.jsonDs.annotation_source.getD {}).config.getD {}).label_map).getD []))).filter
           (fun p => p.2 ≠ "")) = .ok entries ∧
       (["cat"] : List String) = entries.map (·.2)) :=
  C9_label_names_sorted_amended Fix.jsonBaseFs Fix.jsonDs ["cat"] (by decide)

/-! ## Claim C2 -/

/-- A JSON box record that the per-box loops read without raising: a dict
whose `label` value is a string or falsy. -/
def jBoxOK (box : JVal) : Bool :=
  match box with
  | .obj kvs =>
    (match (jget kvs "label").getD .null with
     | .str _ => true
     | v => !pyTruthy v)
  | _ => false

/-- A JSON annotation entry that the box-resolution entry loop reads without
raising: non-dicts are skipped; a dict with a truthy `path` must have a
string `path`, an iterable `boxes` value, and well-shaped boxes. -/
def jEntryOK (entry : JVal) : Bool :=
  match entry with
  | .obj ekvs =>
    if !pyTruthy ((jget ekvs "path").getD .null) then true
    else
      match (jget ekvs "path").getD .null with
      | .str _ =>
        (match jIter ((jget ekvs "boxes").getD (.arr [])) with
         | .ok items => items.all jBoxOK
         | .error _ => false)
      | _ => false
  | _ => true

/-- A payload the box-resolution JSON parser reads without raising. -/
def jPayloadOK (payload : JVal) : Bool :=
  match jsonEntriesOf payload with
  | .ok (.arr entries) => entries.all jEntryOK
  | .ok _ => true
  | .error _ => false

/-- A JSON annotation entry the label-names query reads without raising (it
reads `boxes` of every dict entry, truthy `path` or not). -/
def jEntryNamesOK (entry : JVal) : Bool :=
  match entry with
  | .obj ekvs =>
    (match jIter ((jget ekvs "boxes").getD (.arr [])) with
     | .ok items => items.all jBoxOK
     | .error _ => false)
  | _ => true

/-- A payload the label-names query reads without raising. -/
def jPayloadNamesOK (payload : JVal) : Bool :=
  match jsonEntriesOf payload with
  | .ok (.arr entries) => entries.all jEntryNamesOK
  | .ok _ => true
  | .error _ => false

theorem jBoxLabel_ok {box : JVal} (h : jBoxOK box = true) :
    ∃ s, jBoxLabel box = .ok s := by
  cases box with
  | obj kvs =>
    dsimp only [jBoxOK] at h
    dsimp only [jBoxLabel, jAttrGet]
    cases hlv : (jget kvs "label").getD .null with
    | str s =>
      by_cases ht : pyTruthy (.str s) = true
      · rw [if_pos ht]
        exact ⟨pyStrip s, rfl⟩
      · rw [if_neg ht]
        exact ⟨"", rfl⟩
    | null =>
      rw [if_neg (by decide)]
      exact ⟨"", rfl⟩
    | bool b =>
      rw [hlv] at h
      dsimp only at h
      simp only [Bool.not_eq_true'] at h
      rw [if_neg (by simp [h])]
      exact ⟨"", rfl⟩
    | num q =>
      rw [hlv] at h
      dsimp only at h
      simp only [Bool.not_eq_true'] at h
      rw [if_neg (by simp [h])]
      exact ⟨"", rfl⟩
    | arr xs =>
      rw [hlv] at h
      dsimp only at h
      simp only [Bool.not_eq_true'] at h
      rw [if_neg (by simp [h])]
      exact ⟨"", rfl⟩
    | _ =>
      rw [hlv] at h
      dsimp only at h
      simp only [Bool.not_eq_true'] at h
      rw [if_neg (by simp [h])]
      exact ⟨"", rfl⟩
  | null => exact absurd h (by decide)
  | bool b => exact absurd h (by simp [jBoxOK])
  | num q => exact absurd h (by simp [jBoxOK])
  | str s => exact absurd h (by simp [jBoxOK])
  | arr xs => exact absurd h (by simp [jBoxOK])

theorem jsonBoxStep_ok {bs : List Box} {box : JVal} (h : jBoxOK box = true) :
    ∃ bs2, jsonBoxStep bs box = .ok bs2 := by
  dsimp only [jsonBoxStep]
  rcases jBoxLabel_ok h with ⟨s, hs⟩
  rw [hs]
  dsimp only
  split_ifs
  · exact ⟨bs, rfl⟩
  · split
    · split_ifs <;> exact ⟨_, rfl⟩
    · exact ⟨bs, rfl⟩

theorem jsonEntryStep_ok {dataRoot : String} {lk : Dict (List Box) × Dict (List Box)}
    {entry : JVal} (h : jEntryOK entry = true) :
    ∃ lk2, jsonEntryStep dataRoot lk entry = .ok lk2 := by
  cases entry with
  | obj ekvs =>
    dsimp only [jsonEntryStep]
    dsimp only [jEntryOK] at h
    split_ifs with hp
    · exact ⟨lk, rfl⟩
    · rw [if_neg hp] at h
      cases hraw : (jget ekvs "path").getD .null with
      | str pathStr =>
        rw [hraw] at h
        dsimp only at h
        dsimp only
        cases hit : jIter ((jget ekvs "boxes").getD (.arr [])) with
        | error e =>
          rw [hit] at h
          exact Bool.noConfusion h
        | ok items =>
          rw [hit] at h
          dsimp only at h
          dsimp only
          rcases exceptFold_ok jsonBoxStep items []
              (fun b a ha => jsonBoxStep_ok (List.all_eq_true.mp h a ha)) with ⟨boxes, hboxes⟩
          rw [hboxes]
          dsimp only
          split_ifs <;> exact ⟨_, rfl⟩
      | null => rw [hraw] at h; exact Bool.noConfusion h
      | bool b => rw [hraw] at h; exact Bool.noConfusion h
      | num q => rw [hraw] at h; exact Bool.noConfusion h
      | arr xs => rw [hraw] at h; exact Bool.noConfusion h
      | obj kvs2 => rw [hraw] at h; exact Bool.noConfusion h
  | null => exact ⟨lk, rfl⟩
  | bool b => exact ⟨lk, rfl⟩
  | num q => exact ⟨lk, rfl⟩
  | str s => exact ⟨lk, rfl⟩
  | arr xs => exact ⟨lk, rfl⟩

theorem jsonNamesBoxStep_ok {ls2 : List String} {box : JVal} (h : jBoxOK box = true) :
    ∃ ls3, jsonNamesBoxStep ls2 box = .ok ls3 := by
  dsimp only [jsonNamesBoxStep]
  rcases jBoxLabel_ok h with ⟨s, hs⟩
  simp only [Bind.bind, Except.bind]
  rw [hs]
  dsimp only
  split_ifs <;> exact ⟨_, rfl⟩

theorem jsonNamesEntryStep_ok {ls : List String} {entry : JVal}
    (h : jEntryNamesOK entry = true) :
    ∃ ls2, jsonNamesEntryStep ls entry = .ok ls2 := by
  cases entry with
  | obj ekvs =>
    dsimp only [jsonNamesEntryStep]
    dsimp only [jEntryNamesOK] at h
    simp only [Bind.bind, Except.bind]
    cases hit : jIter ((jget ekvs "boxes").getD (.arr [])) with
    | error e =>
      rw [hit] at h
      exact Bool.noConfusion h
    | ok items =>
      rw [hit] at h
      exact exceptFold_ok jsonNamesBoxStep items ls
        (fun b a ha => jsonNamesBoxStep_ok (List.all_eq_true.mp h a ha))
  | null => exact ⟨ls, rfl⟩
  | bool b => exact ⟨ls, rfl⟩
  | num q => exact ⟨ls, rfl⟩
  | str s => exact ⟨ls, rfl⟩
  | arr xs => exact ⟨ls, rfl⟩

/-- The JSON box parser returns normally on every payload passing the shape
check. -/
theorem defaults_from_json_ok {fs : FS} {ds : Dataset} {files : List String}
    {cfg : SourceCfg}
    (h : ∀ payload, fs.jsonFile (resolve_annotation_path ds cfg.path) = some payload →
      jPayloadOK payload = true) :
    ∃ m, defaults_from_json fs ds files cfg = .ok m := by
  dsimp only [defaults_from_json]
  split_ifs
  · exact ⟨_, rfl⟩
  · cases hj : fs.jsonFile (resolve_annotation_path ds cfg.path) with
    | none => exact ⟨_, rfl⟩
    | some payload =>
      dsimp only
      have hok := h payload hj
      dsimp only [jPayloadOK] at hok
      cases he : jsonEntriesOf payload with
      | error e =>
        rw [he] at hok
        dsimp only at hok
        exact Bool.noConfusion hok
      | ok entries =>
        rw [he] at hok
        cases entries with
        | arr entryList =>
          dsimp only
          dsimp only at hok
          rcases exceptFold_ok (jsonEntryStep (expand (some ds.data_root))) entryList
              (dempty, dempty)
              (fun b a ha => jsonEntryStep_ok (List.all_eq_true.mp hok a ha)) with ⟨lk, hlk⟩
          dsimp only [jsonBuildLookups]
          rw [hlk]
          rcases lk with ⟨lp, ln⟩
          dsimp only
          split_ifs <;> exact ⟨_, rfl⟩
        | null => exact ⟨_, rfl⟩
        | bool b => exact ⟨_, rfl⟩
        | num q => exact ⟨_, rfl⟩
        | str s => exact ⟨_, rfl⟩
        | obj kvs => exact ⟨_, rfl⟩

theorem folderLineBox_ok {labelMap : Dict String} {classNames : List String}
    {dims : Dims} {rep raw : String}
    (hrep : rep = "yolo" ∨ rep = "pascal_voc" ∨ rep = "coco_bbox") :
    ∃ r, folderLineBox labelMap classNames dims rep raw = .ok r := by
  dsimp only [folderLineBox]
  split_ifs
  · exact ⟨none, rfl⟩
  · have hcond : pyLower (pyOrStr (some rep) "yolo") = "yolo" ∨
        pyLower (pyOrStr (some rep) "yolo") = "pascal_voc" ∨
        pyLower (pyOrStr (some rep) "yolo") = "coco_bbox" := by
      rcases hrep with hr | hr | hr <;> subst hr
      · exact Or.inl (by decide)
      · exact Or.inr (Or.inl (by decide))
      · exact Or.inr (Or.inr (by decide))
    rcases parse_detection_bbox_no_throw hcond with ⟨r, hr⟩
    rw [hr]
    cases r with
    | none => exact ⟨none, rfl⟩
    | some t =>
      rcases t with ⟨x, y, w, hh⟩
      exact ⟨_, rfl⟩

theorem folderFileBoxes_ok {labelMap : Dict String} {classNames : List String}
    {dims : Dims} {rep : String} {ls : List String}
    (hrep : rep = "yolo" ∨ rep = "pascal_voc" ∨ rep = "coco_bbox") :
    ∃ bs, folderFileBoxes labelMap classNames dims rep ls = .ok bs := by
  dsimp only [folderFileBoxes]
  refine exceptFold_ok _ ls [] ?_
  intro b a _
  rcases @folderLineBox_ok labelMap classNames dims rep a hrep with ⟨r, hr⟩
  rw [hr]
  cases r
  · exact ⟨b, rfl⟩
  · exact ⟨_, rfl⟩

theorem folderFileStep_ok {fs : FS} {ds : Dataset} {cfg : SourceCfg}
    {annotationRoot dataRoot : String} {d : Dict (List Box)} {imagePath : String}
    (hrep : folderRepresentation cfg = "yolo" ∨ folderRepresentation cfg = "pascal_voc" ∨
      folderRepresentation cfg = "coco_bbox") :
    ∃ d2, folderFileStep fs ds cfg annotationRoot dataRoot d imagePath = .ok d2 := by
  dsimp only [folderFileStep]
  cases htl : fs.textLines
      (annotation_file_for imagePath dataRoot annotationRoot (folderExtension cfg)) with
  | none => exact ⟨d, rfl⟩
  | some ls =>
    dsimp only
    rcases @folderFileBoxes_ok (effective_label_map fs cfg) ds.class_names _
        (folderRepresentation cfg) ls hrep with ⟨bs, hbs⟩
    rw [hbs]
    exact ⟨_, rfl⟩

/-- The folder box parser returns normally for the three recognized
representations, and whenever it diverts to the XML parser. -/
theorem defaults_from_folder_ok {fs : FS} {ds : Dataset} {files : List String}
    {cfg : SourceCfg}
    (hrep : folderRepresentation cfg = "yolo" ∨ folderRepresentation cfg = "pascal_voc" ∨
      folderRepresentation cfg = "coco_bbox" ∨ pyLower (folderExtension cfg) = ".xml") :
    ∃ m, defaults_from_folder fs ds files cfg = .ok m := by
  dsimp only [defaults_from_folder]
  split_ifs with h1 h2
  · exact ⟨_, rfl⟩
  · exact ⟨_, rfl⟩
  · rcases hrep with hr | hr | hr | hr
    · exact exceptFold_ok _ files dempty (fun b a _ => folderFileStep_ok (Or.inl hr))
    · exact exceptFold_ok _ files dempty (fun b a _ => folderFileStep_ok (Or.inr (Or.inl hr)))
    · exact exceptFold_ok _ files dempty (fun b a _ => folderFileStep_ok (Or.inr (Or.inr hr)))
    · exact absurd hr h2

/-- C2 (counterexample): both public entry points can raise.  A JSON payload
whose top level is a number reaches `payload.get` and raises
`AttributeError`; a folder inline label map mixing a digit key with a
non-digit key makes the label-names sort compare a float with a string and
raises `TypeError`. -/
theorem C2_no_throw_counterexample :
    detection_defaults_for_files Fix.jsonBadFs Fix.jsonDs ["/x.jpg"] = .error .attributeError
    ∧ detection_label_names_from_source {} Fix.mixedDs = .error .typeError := by
  exact ⟨by decide, by decide⟩

/-- C2 (amended): the public entry points return normally under these
conditions — any format other than `folder`/`json` (in particular `csv`)
always; `folder` box resolution with a recognized representation or an
`.xml` extension; `json` when every readable payload passes the structural
shape checks; the `folder` label-names query when the non-empty inline
label-map keys are not a mix of digit and non-digit strings. -/
theorem C2_no_throw_amended :
    (∀ (fs : FS) (ds : Dataset) (files : List String),
        pyLower (pyOrStr ((ds.annotation_source.getD {}).format) "") ≠ "folder" →
        pyLower (pyOrStr ((ds.annotation_source.getD {}).format) "") ≠ "json" →
        ∃ m, detection_defaults_for_files fs ds files = .ok m)
    ∧ (∀ (fs : FS) (ds : Dataset) (files : List String),
        (folderRepresentation ((ds.annotation_source.getD {}).config.getD {}) = "yolo" ∨
         folderRepresentation ((ds.annotation_source.getD {}).config.getD {}) = "pascal_voc" ∨
         folderRepresentation ((ds.annotation_source.getD {}).config.getD {}) = "coco_bbox" ∨
         pyLower (folderExtension ((ds.annotation_source.getD {}).config.getD {})) = ".xml") →
        (∀ payload, fs.jsonFile (resolve_annotation_path ds
            ((ds.annotation_source.getD {}).config.getD {}).path) = some payload →
          jPayloadOK payload = true) →
        ∃ m, detection_defaults_for_files fs ds files = .ok m)
    ∧ (∀ (fs : FS) (ds : Dataset),
        pyLower (pyOrStr ((ds.annotation_source.getD {}).format) "") ≠ "folder" →
        pyLower (pyOrStr ((ds.annotation_source.getD {}).format) "") ≠ "json" →
        ∃ ls, detection_label_names_from_source fs ds = .ok ls)
    ∧ (∀ (fs : FS) (ds : Dataset),
        ¬((((ditems (dofList
              ((((ds.annotation_source.getD {}).config.getD {}).label_map).getD []))).filter
              (fun p => p.2 ≠ "")).any (fun p => pyIsDigitStr p.1) = true) ∧
          (((ditems (dofList
              ((((ds.annotation_source.getD {}).config.getD {}).label_map).getD []))).filter
              (fun p => p.2 ≠ "")).any (fun p => !pyIsDigitStr p.1) = true)) →
        (∀ payload, fs.jsonFile (resolve_annotation_path ds
            ((ds.annotation_source.getD {}).config.getD {}).path) = some payload →
          jPayloadNamesOK payload = true) →
        ∃ ls, detection_label_names_from_source fs ds = .ok ls) := by
  refine ⟨?_, ?_, ?_, ?_⟩
  · intro fs ds files h1 h2
    dsimp only [detection_defaults_for_files]
    rw [if_neg h1, if_neg h2]
    split_ifs <;> exact ⟨_, rfl⟩
  · intro fs ds files hrep hjson
    dsimp only [detection_defaults_for_files]
    split_ifs with hf hj hc
    · exact defaults_from_folder_ok hrep
    · exact defaults_from_json_ok hjson
    · exact ⟨_, rfl⟩
    · exact ⟨_, rfl⟩
  · intro fs ds h1 h2
    dsimp only [detection_label_names_from_source]
    rw [if_neg h1, if_neg h2]
    split_ifs <;> exact ⟨_, rfl⟩
  · intro fs ds hmix hjson
    dsimp only [detection_label_names_from_source]
    split_ifs with hf hj hc
    all_goals try exact ⟨_, rfl⟩
    · -- folder inline path with non-empty label map
      simp only [Bind.bind, Except.bind]
      dsimp only [pySortedPairsByKey]
      rw [if_neg (by
        intro hand
        exact hmix (by simpa using hand))]
      exact ⟨_, rfl⟩
    · -- json path
      cases hjf : fs.jsonFile (resolve_annotation_path ds
          ((ds.annotation_source.getD {}).config.getD {}).path) with
      | none => exact ⟨_, rfl⟩
      | some payload =>
        dsimp only
        have hok := hjson payload hjf
        dsimp only [jPayloadNamesOK] at hok
        simp only [Bind.bind, Except.bind]
        cases he : jsonEntriesOf payload with
        | error e =>
          rw [he] at hok
          dsimp only at hok
          exact Bool.noConfusion hok
        | ok entries =>
          rw [he] at hok
          cases entries with
          | arr entryList =>
            dsimp only
            dsimp only at hok
            rcases exceptFold_ok jsonNamesEntryStep entryList []
                (fun b a ha => jsonNamesEntryStep_ok (List.all_eq_true.mp hok a ha))
              with ⟨labels, hlabels⟩
            rw [hlabels]
            exact ⟨_, rfl⟩
          | null => exact ⟨_, rfl⟩
          | bool b => exact ⟨_, rfl⟩
          | num q => exact ⟨_, rfl⟩
          | str s => exact ⟨_, rfl⟩
          | obj kvs => exact ⟨_, rfl⟩

/-- C2 witness: the amended no-throw guarantee evaluated on the concrete
well-shaped JSON fixture. -/
theorem C2_no_throw_amended_witness :
    ∃ m, detection_defaults_for_files Fix.jsonBaseFs Fix.jsonDs ["/data/set/img001.jpg"]
      = .ok m :=
  C2_no_throw_amended.2.1 Fix.jsonBaseFs Fix.jsonDs ["/data/set/img001.jpg"]
    (Or.inl (by decide))
    (by
      intro payload hp
      have h0 : Fix.jsonBaseFs.jsonFile (resolve_annotation_path Fix.jsonDs
          ((Fix.jsonDs.annotation_source.getD {}).config.getD {}).path)
          = some Fix.jsonBasePayload := rfl
      rw [h0] at hp
      cases Option.some.inj hp
      decide)

end Siwa
